import Mathlib

/-!
# GoMine falling-block entity: embedding of `server/entity/falling_block.go`

A shallow embedding of `FallingBlock.Tick`, `FallingBlock.ignores`,
`FallingBlockType.BBox`, `FallingBlockType.EncodeNBT` and
`FallingBlockType.DecodeNBT`.

Conventions of the embedding.

* A Go `float64` is the rational number it denotes (`ℚ`). The float64
  operations `-`, `*` and `+` are `Float64.sub`, `Float64.mul` and
  `Float64.add`: the exact result rounded to the nearest float64, ties to
  even (`Float64.round`, 53-bit significand, minimum exponent -1022), and a
  float64 constant such as `0.05` is `Float64.round (5 / 100)`. `<`,
  `math.Ceil`, `math.Floor` and `math.Min` are exact on float64 values. NaN,
  the infinities, overflow and the sign of zero are outside the model.
* A block is a value of an arbitrary type `B`; the dynamic type assertions of
  the source (`f.block.(damager)`, `b.(replaceable)`, ...) are the capability
  probes of `Env`, which answer `none` / `false` when the block's dynamic type
  lacks the capability.
* The world and the other collaborators that `Tick` calls are the fields of
  `Env`; every call that leaves `Tick` is recorded, in order, as an `Effect`.
* A failed, unchecked type assertion (`e.(Living)`) is a Go panic: it stops the
  run, which is recorded in `Run.panicked`.
-/

namespace GoMine

/-! ## float64 arithmetic -/

namespace Float64

/-- The integer nearest to `x`, the even one of the two when `x` lies halfway
between them. -/
def roundHalfEven (x : ℚ) : ℤ :=
  let f := ⌊x⌋
  let d := x - f
  if d < 1 / 2 then f
  else if 1 / 2 < d then f + 1
  else if f % 2 = 0 then f else f + 1

/-- With enough fuel (`n ≤ fuel`), the position of the highest set bit of `n`:
`⌊log₂ n⌋`, and 0 for `n = 0`. -/
def bits : ℕ → ℕ → ℕ
  | 0, _ => 0
  | fuel + 1, n => if 2 ≤ n then bits fuel (n / 2) + 1 else 0

/-- For `q ≠ 0`, the integer `e` with `2 ^ e ≤ |q| < 2 ^ (e + 1)`. -/
def log2 (q : ℚ) : ℤ :=
  let e0 : ℤ := (bits q.num.natAbs q.num.natAbs : ℤ) - (bits q.den q.den : ℤ)
  if (2 : ℚ) ^ e0 ≤ |q| then e0 else e0 - 1

/-- The exponent a float64 near `q` has: `⌊log₂ |q|⌋`, and -1022 for the
subnormal range below `2 ^ (-1022)`. -/
def exponent (q : ℚ) : ℤ := max (log2 q) (-1022)

/-- The distance between neighbouring float64 values near `q`: the
significand has 53 bits. -/
def ulp (q : ℚ) : ℚ := 2 ^ (exponent q - 52)

/-- The float64 nearest to `q`, ties to even: the result of a float64
operation whose exact result is `q`, and of converting the constant `q`. -/
def round (q : ℚ) : ℚ := roundHalfEven (q / ulp q) * ulp q

/-- The float64 operation `x - y`. -/
def sub (x y : ℚ) : ℚ := round (x - y)

/-- The float64 operation `x * y`. -/
def mul (x y : ℚ) : ℚ := round (x * y)

/-- The float64 operation `x + y`. -/
def add (x y : ℚ) : ℚ := round (x + y)

end Float64

/-! ## Vectors, block positions and boxes -/

/-- An `mgl64.Vec3`: three float64 components. -/
structure Vec3 where
  x : ℚ
  y : ℚ
  z : ℚ
  deriving DecidableEq, Repr

/-- The method `Vec3.Y`. -/
def Vec3.Y (v : Vec3) : ℚ := v.y

/-- The zero value `mgl64.Vec3{}`. -/
def Vec3.zero : Vec3 := ⟨0, 0, 0⟩

/-- A `cube.Pos`: three ints; `pos[1]` is the field `y`. -/
structure Pos where
  x : Int
  y : Int
  z : Int
  deriving DecidableEq, Repr

/-- A `cube.BBox`: minimum and maximum corner. -/
structure BBox where
  min : Vec3
  max : Vec3
  deriving DecidableEq, Repr

/-- The constructor `cube.Box(x0, y0, z0, x1, y1, z1)`. -/
def Box (x0 y0 z0 x1 y1 z1 : ℚ) : BBox := ⟨⟨x0, y0, z0⟩, ⟨x1, y1, z1⟩⟩

/-- Modelled from the spec: `cube.BBox.Translate` (package `cube` is absent);
the box moved by the vector `v`. -/
def BBox.Translate (b : BBox) (v : Vec3) : BBox :=
  ⟨⟨Float64.add b.min.x v.x, Float64.add b.min.y v.y, Float64.add b.min.z v.z⟩,
    ⟨Float64.add b.max.x v.x, Float64.add b.max.y v.y, Float64.add b.max.z v.z⟩⟩

/-- Modelled from the spec: `cube.BBox.Grow` (package `cube` is absent); the
box extended by `d` in every direction. -/
def BBox.Grow (b : BBox) (d : ℚ) : BBox :=
  ⟨⟨Float64.sub b.min.x d, Float64.sub b.min.y d, Float64.sub b.min.z d⟩,
    ⟨Float64.add b.max.x d, Float64.add b.max.y d, Float64.add b.max.z d⟩⟩

/-! ## Entities -/

/-- A `world.Entity` interface value as `Tick` sees it: its identity (the
pointer it holds) and whether its dynamic type implements `Living`. -/
structure Entity where
  id : Nat
  living : Bool
  deriving DecidableEq, Repr

/-- The `MovementComputer` held by a falling block, with the ground-contact
flag that `TickMovement` leaves behind and `OnGround` reads. -/
structure MovementComputer where
  Gravity : ℚ
  Drag : ℚ
  DragBeforeGravity : Bool
  onGround : Bool
  deriving DecidableEq, Repr

/-- The method `MovementComputer.OnGround`. -/
def MovementComputer.OnGround (c : MovementComputer) : Bool := c.onGround

/-- The struct `FallingBlock`: the transform's position and velocity, the
payload block, the fall-distance accumulator and the movement computer. -/
structure FallingBlock (B : Type) where
  pos : Vec3
  vel : Vec3
  block : B
  fallDistance : ℚ
  c : MovementComputer
  deriving DecidableEq, Repr

/-- The constructor `NewFallingBlock`. -/
def NewFallingBlock {B : Type} (block : B) (pos : Vec3) : FallingBlock B :=
  { pos := pos, vel := Vec3.zero, block := block, fallDistance := 0,
    c := { Gravity := Float64.round (4 / 100), Drag := Float64.round (2 / 100),
           DragBeforeGravity := true, onGround := false } }

/-- The method `FallingBlock.ignores`, on the receiver `self`. -/
def ignores (self : Entity) (entity : Entity) : Bool :=
  let ok := entity.living
  !ok || entity == self

/-- The method `FallingBlockType.BBox`. -/
def FallingBlockType.BBox : BBox :=
  Box (Float64.round (-(49 / 100))) 0 (Float64.round (-(49 / 100))) (Float64.round (49 / 100))
    (Float64.round (98 / 100)) (Float64.round (49 / 100))

/-! ## Collaborators and effects -/

/-- An `item.Stack` as built by `item.NewStack(i, count)`. -/
structure Stack (B : Type) where
  item : B
  count : Nat
  deriving DecidableEq, Repr

/-- The constructor `item.NewStack`. -/
def NewStack {B : Type} (i : B) (count : Nat) : Stack B := ⟨i, count⟩

/-- The item entity built by `NewItem(stack, pos)`. -/
structure Item (B : Type) where
  i : Stack B
  pos : Vec3
  deriving DecidableEq, Repr

/-- The constructor `NewItem`. -/
def NewItem {B : Type} (i : Stack B) (pos : Vec3) : Item B := ⟨i, pos⟩

/-- The calls that leave `Tick`, in the order they are made: `m.Send()`,
`f.Close()`, `e.(Living).Hurt(force, block.DamageSource{Block: src})`,
`b.Break()`, `l.Landed(w, pos)`, `w.SetBlock(pos, b, nil)` and
`w.AddEntity(item)`. -/
inductive Effect (B : Type) where
  | Send (pos vel : Vec3)
  | Close
  | Hurt (e : Entity) (force : ℚ) (src : B)
  | Break (b : B)
  | Landed (b : B) (pos : Pos)
  | SetBlock (pos : Pos) (b : B)
  | AddEntity (it : Item B)
  deriving DecidableEq, Repr

/-- Whether the effect is a `Hurt` call. -/
def Effect.isHurt {B : Type} : Effect B → Bool
  | Effect.Hurt _ _ _ => true
  | _ => false

/-- Whether the effect is a `Break` call. -/
def Effect.isBreak {B : Type} : Effect B → Bool
  | Effect.Break _ => true
  | _ => false

/-- Whether the effect is a `Landed` notification. -/
def Effect.isLanded {B : Type} : Effect B → Bool
  | Effect.Landed _ _ => true
  | _ => false

/-- Whether the effect is a `SetBlock` call. -/
def Effect.isSetBlock {B : Type} : Effect B → Bool
  | Effect.SetBlock _ _ => true
  | _ => false

/-- Whether the effect is an `AddEntity` call. -/
def Effect.isAddEntity {B : Type} : Effect B → Bool
  | Effect.AddEntity _ => true
  | _ => false

/-- Whether the effect is a `Close` call. -/
def Effect.isClose {B : Type} : Effect B → Bool
  | Effect.Close => true
  | _ => false

/-- Whether the effect is one of the landing side effects: a `Hurt`, `Break`,
`Landed`, `SetBlock` or `AddEntity` call. -/
def Effect.isLanding {B : Type} (e : Effect B) : Bool :=
  e.isHurt || e.isBreak || e.isLanded || e.isSetBlock || e.isAddEntity

/-- What `Tick` uses and the source files do not define: the world (state
`W`), package `cube`, and the dynamic type of a block value.

* `Range`, `Block`: `w.Range()` and `w.Block(pos)`.
* `entitiesIn`: the entities the world finds inside a box, before the exclude
  filter of `EntitiesWithin` is applied.
* `perform`: the world after one of the calls of `Effect` has returned.
* `PosFromVec3`, `Vec3Middle`: `cube.PosFromVec3` and `cube.Pos.Vec3Middle`.
* `solidifiable b`: `some a` when `b.(Solidifiable)` succeeds, with
  `a pos w` the answer of `Solidifies(pos, w)`.
* `damager b`: `some (damagePerBlock, maxDamage)` when `b.(damager)` succeeds.
* `breakable b`: `some (b.Break())` when `b.(breakable)` succeeds.
* `landable b`: whether `b.(landable)` succeeds.
* `replaceable b`: `some r` when `b.(replaceable)` succeeds, with `r x` the
  answer of `ReplaceableBy(x)`.
* `item b`: whether `b.(world.Item)` succeeds. -/
structure Env (W B : Type) where
  Range : W → Int × Int
  Block : W → Pos → B
  entitiesIn : W → BBox → List Entity
  perform : W → Effect B → W
  PosFromVec3 : Vec3 → Pos
  Vec3Middle : Pos → Vec3
  solidifiable : B → Option (Pos → W → Bool)
  damager : B → Option (ℚ × ℚ)
  breakable : B → Option B
  landable : B → Bool
  replaceable : B → Option (B → Bool)
  item : B → Bool

/-- Modelled from the spec: `World.EntitiesWithin` (package `world` is absent),
`entitiesWithin(bbox, excludeFilter) -> sequence of Entity`: the entities
found inside the box, without those the exclude filter answers true for. -/
def EntitiesWithin {W B : Type} (env : Env W B) (w : W) (box : BBox) (ignored : Entity → Bool) :
    List Entity :=
  (env.entitiesIn w box).filter (fun e => !ignored e)

/-- The result `m` of `f.c.TickMovement(f, f.pos, f.vel, 0, 0)`: the new
position and velocity, and the ground contact the computer reports from then
on. -/
structure Movement where
  pos : Vec3
  vel : Vec3
  onGround : Bool
  deriving DecidableEq, Repr

/-- A run of `Tick` so far: the entity, the world, the calls made, and whether
a type assertion has failed. -/
structure Run (W B : Type) where
  f : FallingBlock B
  w : W
  trace : List (Effect B)
  panicked : Bool

/-- One call leaving `Tick`: it is recorded and the world moves on. -/
def Run.emit {W B : Type} (env : Env W B) (s : Run W B) (e : Effect B) : Run W B :=
  { s with w := env.perform s.w e, trace := s.trace ++ [e] }

/-- The run in which the movement computer reports the ground contact `b`;
nothing else differs. Used to compare two runs of `Tick`. -/
def Run.setOnGround {W B : Type} (s : Run W B) (b : Bool) : Run W B :=
  { s with f := { s.f with c := { s.f.c with onGround := b } } }

/-! ## `FallingBlock.Tick` -/

/-- Lines 72-84 of `Tick`: the movement result is stored and sent, then the
fall-distance accumulator is updated from the new vertical velocity. -/
def Tick.move {W B : Type} (env : Env W B) (w : W) (f : FallingBlock B) (m : Movement) : Run W B :=
  let f1 : FallingBlock B := { f with pos := m.pos, vel := m.vel, c := { f.c with onGround := m.onGround } }
  let s : Run W B := Run.emit env ⟨f1, w, [], false⟩ (Effect.Send m.pos m.vel)
  let distThisTick := s.f.vel.Y
  if distThisTick < s.f.fallDistance then
    { s with f := { s.f with fallDistance := Float64.sub s.f.fallDistance distThisTick } }
  else
    { s with f := { s.f with fallDistance := 0 } }

/-- Lines 87-89 of `Tick`: below the world the entity is closed; the function
goes on. -/
def Tick.bounds {W B : Type} (env : Env W B) (s : Run W B) (pos : Pos) : Run W B :=
  if pos.y < (env.Range s.w).1 then s.emit env Effect.Close else s

/-- The condition of line 91:
`(ok && a.Solidifies(pos, w)) || f.c.OnGround()`. -/
def Tick.lands {W B : Type} (env : Env W B) (s : Run W B) (pos : Pos) : Bool :=
  (match env.solidifiable s.f.block with
    | some a => a pos s.w
    | none => false) || s.f.c.OnGround

/-- The loop of lines 96-98: every entity of the slice is asserted to be
`Living` and hurt; a failed assertion panics. -/
def Tick.hurtAll {W B : Type} (env : Env W B) (force : ℚ) (src : B) : List Entity → Run W B → Run W B
  | [], s => s
  | e :: es, s =>
    if e.living then Tick.hurtAll env force src es (s.emit env (Effect.Hurt e force src))
    else { s with panicked := true }

/-- Lines 92-103 of `Tick`: fall damage and the break of the payload; `r` is
the value `rand.Float64()` returns when it is called. The product and the sum
of the break threshold are rounded one after the other (no fused
multiply-add). -/
def Tick.damage {W B : Type} (env : Env W B) (self : Entity) (s : Run W B) (m : Movement) (r : ℚ) :
    Run W B :=
  match env.damager s.f.block with
  | some (damagePerBlock, maxDamage) =>
    let dist : ℚ := (⌈Float64.sub s.f.fallDistance 1⌉ : ℤ)
    if dist > 0 then
      let force : ℚ := min ((⌊Float64.mul dist damagePerBlock⌋ : ℤ) : ℚ) maxDamage
      let s1 := Tick.hurtAll env force s.f.block
        (EntitiesWithin env s.w
          ((FallingBlockType.BBox.Translate m.pos).Grow (Float64.round (5 / 100))) (ignores self)) s
      if s1.panicked then s1
      else
        match env.breakable s1.f.block with
        | some b =>
          if force > 0 ∧
              r < Float64.add (Float64.round (5 / 100)) (Float64.mul dist (Float64.round (5 / 100))) then
            let s2 := s1.emit env (Effect.Break s1.f.block)
            { s2 with f := { s2.f with block := b } }
          else s1
        | none => s1
    else s
  | none => s

/-- Lines 105-107 of `Tick`: the landing notification of the payload. -/
def Tick.land {W B : Type} (env : Env W B) (s : Run W B) (pos : Pos) : Run W B :=
  if env.landable s.f.block then s.emit env (Effect.Landed s.f.block pos) else s

/-- Lines 109-110 of `Tick`: `b := w.Block(pos)` and the condition
`ok && r.ReplaceableBy(f.block)` of the type assertion `b.(replaceable)`. -/
def Tick.replaces {W B : Type} (env : Env W B) (s : Run W B) (pos : Pos) : Bool :=
  let b := env.Block s.w pos
  match env.replaceable b with
  | some r => r s.f.block
  | none => false

/-- Lines 109-116 of `Tick`: the payload is placed, or dropped as an item. -/
def Tick.place {W B : Type} (env : Env W B) (s : Run W B) (pos : Pos) : Run W B :=
  if Tick.replaces env s pos then
    s.emit env (Effect.SetBlock pos s.f.block)
  else if env.item s.f.block then
    s.emit env (Effect.AddEntity (NewItem (NewStack s.f.block 1) (env.Vec3Middle pos)))
  else s

/-- Lines 72-89 of `Tick`: the run when the condition of line 91 is
evaluated. -/
def Tick.arrive {W B : Type} (env : Env W B) (w : W) (f : FallingBlock B) (m : Movement) : Run W B :=
  Tick.bounds env (Tick.move env w f m) (env.PosFromVec3 m.pos)

/-- Lines 72-107 of `Tick` on a landing tick: the run when the world block at
the landing position is read (line 109). -/
def Tick.landed {W B : Type} (env : Env W B) (w : W) (self : Entity) (f : FallingBlock B)
    (m : Movement) (r : ℚ) : Run W B :=
  Tick.land env (Tick.damage env self (Tick.arrive env w f m) m r) (env.PosFromVec3 m.pos)

/-- The method `FallingBlock.Tick` on the receiver `self` with state `f`, in
the world `w`, for the movement result `m` and the random draw `r`. -/
def Tick {W B : Type} (env : Env W B) (w : W) (self : Entity) (f : FallingBlock B) (m : Movement)
    (r : ℚ) : Run W B :=
  let pos := env.PosFromVec3 m.pos
  let s := Tick.arrive env w f m
  if Tick.lands env s pos then
    let s := Tick.damage env self s m r
    if s.panicked then s
    else
      let s := Tick.land env s pos
      let s := Tick.place env s pos
      s.emit env Effect.Close
  else s

/-! ## `FallingBlockType.EncodeNBT` and `FallingBlockType.DecodeNBT` -/

/-- A value of a `map[string]any` record: an int64, a float64, a `[]float32`
(each element the number it denotes), a string, a bool, or a nested record
that describes a block (a descriptor of type `D`). -/
inductive Tag (D : Type) where
  | Int64 (v : Int)
  | Float64 (v : ℚ)
  | Float32s (v : List ℚ)
  | String (v : String)
  | Bool (v : Bool)
  | Compound (v : D)
  deriving DecidableEq, Repr

/-- A `map[string]any`: the value of a key is the first one listed for it. -/
abbrev Record (D : Type) := List (String × Tag D)

/-- What the two codec functions use and the source files do not define:
`float32 x` is `float64(float32(x))`, the float64 `x` narrowed to a 32-bit
float; `WriteBlock` is `nbtconv.WriteBlock`, the descriptor written for a
block; `Block d` is the block the descriptor `d` resolves to in the block
registry, `none` for nil. -/
structure Codec (B D : Type) where
  float32 : ℚ → ℚ
  WriteBlock : B → D
  Block : D → Option B

/-- Modelled from the spec: `nbtconv.Map[float64]` (package `nbtconv` is
absent); the float64 held under the key, and the zero value when the key is
missing or holds a value of another type. -/
def nbtconv.MapFloat64 {D : Type} (data : Record D) (k : String) : ℚ :=
  match data.lookup k with
  | some (Tag.Float64 v) => v
  | _ => 0

/-- Modelled from the spec: `nbtconv.MapVec3` (package `nbtconv` is absent);
the 3-float vector held under the key, widened to float64, and the zero vector
when the key is missing or holds anything else. -/
def nbtconv.MapVec3 {D : Type} (data : Record D) (k : String) : Vec3 :=
  match data.lookup k with
  | some (Tag.Float32s [x, y, z]) => ⟨x, y, z⟩
  | _ => Vec3.zero

/-- Modelled from the spec: `nbtconv.Vec3ToFloat32Slice` (package `nbtconv` is
absent); the three components narrowed to 32-bit floats. -/
def nbtconv.Vec3ToFloat32Slice {B D : Type} (codec : Codec B D) (v : Vec3) : List ℚ :=
  [codec.float32 v.x, codec.float32 v.y, codec.float32 v.z]

/-- Modelled from the spec: `nbtconv.MapBlock` (package `nbtconv` is absent);
the block that the nested block descriptor under the key resolves to, and nil
when the key is missing, holds no descriptor, or the descriptor does not
resolve. -/
def nbtconv.MapBlock {B D : Type} (codec : Codec B D) (data : Record D) (k : String) : Option B :=
  match data.lookup k with
  | some (Tag.Compound d) => codec.Block d
  | _ => none

/-- The method `FallingBlock.FallDistance`. -/
def FallingBlock.FallDistance {B : Type} (f : FallingBlock B) : ℚ := f.fallDistance

/-- The method `Position` of the embedded transform. -/
def FallingBlock.Position {B : Type} (f : FallingBlock B) : Vec3 := f.pos

/-- The method `Velocity` of the embedded transform. -/
def FallingBlock.Velocity {B : Type} (f : FallingBlock B) : Vec3 := f.vel

/-- The method `SetVelocity` of the embedded transform. -/
def FallingBlock.SetVelocity {B : Type} (f : FallingBlock B) (v : Vec3) : FallingBlock B :=
  { f with vel := v }

/-- The method `FallingBlockType.DecodeNBT`; `none` is the nil entity. -/
def FallingBlockType.DecodeNBT {B D : Type} (codec : Codec B D) (data : Record D) :
    Option (FallingBlock B) :=
  match nbtconv.MapBlock codec data "FallingBlock" with
  | none => none
  | some b =>
    let n := NewFallingBlock b (nbtconv.MapVec3 data "Pos")
    let n := n.SetVelocity (nbtconv.MapVec3 data "Motion")
    some { n with fallDistance := nbtconv.MapFloat64 data "FallDistance" }

/-- The method `FallingBlockType.EncodeNBT` on a `*FallingBlock`; `rnd` is the
value `rand.Int63()` returns. -/
def FallingBlockType.EncodeNBT {B D : Type} (codec : Codec B D) (rnd : Nat) (f : FallingBlock B) :
    Record D :=
  [("UniqueID", Tag.Int64 (-(rnd : Int))),
   ("FallDistance", Tag.Float64 f.FallDistance),
   ("Pos", Tag.Float32s (nbtconv.Vec3ToFloat32Slice codec f.Position)),
   ("Motion", Tag.Float32s (nbtconv.Vec3ToFloat32Slice codec f.Velocity)),
   ("FallingBlock", Tag.Compound (codec.WriteBlock f.block))]

/-! ## A small world to run the code in -/

namespace Demo

/-- Seven block kinds: `air` is replaceable by anything; `stone` has no
capability; `sand` is an item; `weight` is an item, a damager reporting
`(2, 20)`, breakable into `chipped` and landable; `chipped` is an item;
`powder` is an item that solidifies wherever it is; `spike` is an item and a
damager reporting `(0.7, 20)`. -/
inductive Blk where
  | air
  | stone
  | sand
  | weight
  | chipped
  | powder
  | spike
  deriving DecidableEq, Repr

/-- A world state: its lower bound, the block it holds at every position and
the entities it finds in any box. -/
structure World where
  floor : Int
  fill : Blk
  ents : List Entity
  deriving DecidableEq, Repr

/-- The collaborators of the small world. -/
def env : Env World Blk where
  Range := fun w => (w.floor, 255)
  Block := fun w _ => w.fill
  entitiesIn := fun w _ => w.ents
  perform := fun w _ => w
  PosFromVec3 := fun v => ⟨⌊v.x⌋, ⌊v.y⌋, ⌊v.z⌋⟩
  Vec3Middle := fun p => ⟨p.x + 1 / 2, p.y, p.z + 1 / 2⟩
  solidifiable := fun b => if b = Blk.powder then some (fun _ _ => true) else none
  damager := fun b =>
    if b = Blk.weight then some (2, 20)
    else if b = Blk.spike then some (3152519739159347 / 4503599627370496, 20)
    else none
  breakable := fun b => if b = Blk.weight then some Blk.chipped else none
  landable := fun b => decide (b = Blk.weight)
  replaceable := fun b => if b = Blk.air then some (fun _ => true) else none
  item := fun b => decide (b ≠ Blk.air ∧ b ≠ Blk.stone)

/-- The falling block itself, as an entity. -/
def self : Entity := ⟨0, false⟩

/-- A living entity. -/
def mob : Entity := ⟨1, true⟩

/-- A second living entity. -/
def mob2 : Entity := ⟨2, true⟩

/-- An entity that is not living. -/
def arrow : Entity := ⟨3, false⟩

/-- A world of stone with its lower bound at 0. -/
def stoneWorld : World := ⟨0, Blk.stone, [self, mob, arrow, mob2]⟩

/-- A world of air with its lower bound at 0. -/
def airWorld : World := ⟨0, Blk.air, [self, mob, arrow, mob2]⟩

/-- A falling weight that has fallen 6 blocks. -/
def heavy : FallingBlock Blk := { NewFallingBlock Blk.weight ⟨0, 10, 0⟩ with fallDistance := 6 }

/-- A falling weight that has fallen half a block. -/
def light : FallingBlock Blk := { NewFallingBlock Blk.weight ⟨0, 10, 0⟩ with fallDistance := 1 / 2 }

/-- Falling sand that has fallen 3 blocks. -/
def grain : FallingBlock Blk := { NewFallingBlock Blk.sand ⟨0, 10, 0⟩ with fallDistance := 3 }

/-- A falling spike that has fallen 11 blocks; the damage per block it reports,
`3152519739159347 / 2 ^ 52`, is the float64 `0.7`. -/
def spiky : FallingBlock Blk := { NewFallingBlock Blk.spike ⟨0, 10, 0⟩ with fallDistance := 11 }

/-- Falling sand with a fall distance of `2 ^ 53`. -/
def giant : FallingBlock Blk :=
  { NewFallingBlock Blk.sand ⟨0, 10, 0⟩ with fallDistance := 9007199254740992 }

/-- Falling sand with the fall distance `3602879701896397 / 2 ^ 55`, the
float64 `0.1`. -/
def speck : FallingBlock Blk :=
  { NewFallingBlock Blk.sand ⟨0, 10, 0⟩ with fallDistance := 3602879701896397 / 36028797018963968 }

/-- Falling powder, just created. -/
def dust : FallingBlock Blk := NewFallingBlock Blk.powder ⟨0, 10, 0⟩

/-- A movement that ends at rest on the ground, in block `(0, 5, 0)`. -/
def touchdown : Movement := ⟨⟨0, 5, 0⟩, ⟨0, 0, 0⟩, true⟩

/-- A movement half a block down in mid-air. -/
def drop : Movement := ⟨⟨0, 19 / 2, 0⟩, ⟨0, -(1 / 2), 0⟩, false⟩

/-- A movement one block down in mid-air. -/
def step : Movement := ⟨⟨0, 9, 0⟩, ⟨0, -1, 0⟩, false⟩

/-- A movement down in mid-air at the vertical velocity
`-(3602879701896397 / 2 ^ 54)`, the float64 `-0.2`. -/
def slip : Movement :=
  ⟨⟨0, 9, 0⟩, ⟨0, -(3602879701896397 / 18014398509481984), 0⟩, false⟩

/-- A movement 4 blocks up in mid-air. -/
def bounce : Movement := ⟨⟨0, 14, 0⟩, ⟨0, 4, 0⟩, false⟩

/-- A movement one block down that ends below the world, in block
`(0, -1, 0)`, in mid-air. -/
def abyss : Movement := ⟨⟨0, -1, 0⟩, ⟨0, -1, 0⟩, false⟩

/-- The block registry of the small world: a block is written as its name,
and every name but `"air"` and the unknown ones resolves; narrowing keeps
multiples of `1 / 1024` and rounds the rest down to one. -/
def codec : Codec Blk String where
  float32 := fun q => (⌊q * 1024⌋ : ℤ) / 1024
  WriteBlock := fun b =>
    match b with
    | Blk.air => "air"
    | Blk.stone => "stone"
    | Blk.sand => "sand"
    | Blk.weight => "weight"
    | Blk.chipped => "chipped"
    | Blk.powder => "powder"
    | Blk.spike => "spike"
  Block := fun d =>
    if d = "stone" then some Blk.stone
    else if d = "sand" then some Blk.sand
    else if d = "weight" then some Blk.weight
    else if d = "chipped" then some Blk.chipped
    else if d = "powder" then some Blk.powder
    else if d = "spike" then some Blk.spike
    else none

end Demo

end GoMine

/-! ## Facts about float64 rounding -/

namespace GoMine

namespace Float64

theorem bits_eq (fuel n : ℕ) (h : n ≤ fuel) : bits fuel n = Nat.log2 n := by
  induction fuel generalizing n with
  | zero =>
    have : n = 0 := by omega
    subst this
    unfold bits
    rw [Nat.log2]
    simp
  | succ fuel ih =>
    unfold bits
    rw [Nat.log2]
    split_ifs with h2
    · rw [ih (n / 2) (by omega)]
    · rfl

theorem two_pow_bits_le (n : ℕ) (h : n ≠ 0) : (2 : ℚ) ^ (bits n n : ℤ) ≤ n := by
  rw [bits_eq n n le_rfl, zpow_natCast]
  exact_mod_cast Nat.log2_self_le h

theorem lt_two_pow_bits (n : ℕ) : (n : ℚ) < 2 ^ ((bits n n : ℤ) + 1) := by
  rw [bits_eq n n le_rfl]
  have h : n < 2 ^ (Nat.log2 n + 1) := Nat.lt_log2_self
  have h2 : ((Nat.log2 n : ℤ) + 1) = ((Nat.log2 n + 1 : ℕ) : ℤ) := by push_cast; rfl
  rw [h2, zpow_natCast]
  exact_mod_cast h

theorem abs_eq_div (q : ℚ) : |q| = (q.num.natAbs : ℚ) / (q.den : ℚ) := by
  have h2 : (q.num.natAbs : ℚ) = |(q.num : ℚ)| := by
    rw [← Int.cast_abs, ← Int.natCast_natAbs, Int.cast_natCast]
  have h3 : (0 : ℚ) < q.den := by exact_mod_cast q.den_pos
  conv_lhs => rw [← Rat.num_div_den q]
  rw [abs_div, abs_of_pos h3, h2]

theorem log2_spec (q : ℚ) (hq : q ≠ 0) :
    (2 : ℚ) ^ log2 q ≤ |q| ∧ |q| < 2 ^ (log2 q + 1) := by
  have hn : q.num.natAbs ≠ 0 := by
    intro h
    exact hq (Rat.zero_of_num_zero (Int.natAbs_eq_zero.mp h))
  have hd : q.den ≠ 0 := q.den_nz
  have hdpos : (0 : ℚ) < q.den := by exact_mod_cast q.den_pos
  have a1 := two_pow_bits_le q.num.natAbs hn
  have a2 := lt_two_pow_bits q.num.natAbs
  have b1 := two_pow_bits_le q.den hd
  have b2 := lt_two_pow_bits q.den
  have habs := abs_eq_div q
  have h2 : (0 : ℚ) < 2 := by norm_num
  have h2' : (2 : ℚ) ≠ 0 := by norm_num
  unfold log2
  simp only []
  generalize (bits q.num.natAbs q.num.natAbs : ℤ) = a at a1 a2 ⊢
  generalize (bits q.den q.den : ℤ) = b at b1 b2 ⊢
  have pa : (0 : ℚ) < 2 ^ a := zpow_pos h2 a
  have pb : (0 : ℚ) < 2 ^ b := zpow_pos h2 b
  split_ifs with h
  · refine ⟨h, ?_⟩
    rw [habs, div_lt_iff₀ hdpos]
    have e : (2 : ℚ) ^ (a - b + 1) = 2 ^ (a + 1) / 2 ^ b := by
      rw [← zpow_sub₀ h2']; congr 1; ring
    rw [e, div_mul_eq_mul_div, lt_div_iff₀ pb]
    have pa1 : (0 : ℚ) < 2 ^ (a + 1) := zpow_pos h2 _
    calc (q.num.natAbs : ℚ) * 2 ^ b ≤ q.num.natAbs * q.den :=
          mul_le_mul_of_nonneg_left b1 (Nat.cast_nonneg _)
      _ < 2 ^ (a + 1) * q.den := mul_lt_mul_of_pos_right a2 hdpos
  · refine ⟨?_, ?_⟩
    · rw [habs, le_div_iff₀ hdpos]
      have e : (2 : ℚ) ^ (a - b - 1) = 2 ^ a / 2 ^ (b + 1) := by
        rw [← zpow_sub₀ h2']; congr 1; ring
      have pb1 : (0 : ℚ) < 2 ^ (b + 1) := zpow_pos h2 _
      rw [e, div_mul_eq_mul_div, div_le_iff₀ pb1]
      calc (2 : ℚ) ^ a * q.den ≤ 2 ^ a * 2 ^ (b + 1) :=
            mul_le_mul_of_nonneg_left (le_of_lt b2) (le_of_lt pa)
        _ ≤ q.num.natAbs * 2 ^ (b + 1) := mul_le_mul_of_nonneg_right a1 (le_of_lt pb1)
    · have e : a - b - 1 + 1 = a - b := by ring
      rw [e]
      exact not_le.mp h

theorem exponent_ge (q : ℚ) : -1022 ≤ exponent q := le_max_right _ _

theorem ulp_pos (q : ℚ) : 0 < ulp q := zpow_pos (by norm_num) _

theorem abs_lt_exponent (q : ℚ) : |q| < 2 ^ (exponent q + 1) := by
  by_cases hq : q = 0
  · rw [hq, abs_zero]
    exact zpow_pos (by norm_num) _
  · refine lt_of_lt_of_le (log2_spec q hq).2 ?_
    exact zpow_le_zpow_right₀ (by norm_num) (by unfold exponent; have := le_max_left (log2 q) (-1022); omega)

theorem exponent_le_abs (q : ℚ) (h : (2 : ℚ) ^ (-1022 : ℤ) ≤ |q|) : 2 ^ exponent q ≤ |q| := by
  have hq : q ≠ 0 := by
    intro h0
    rw [h0, abs_zero] at h
    exact absurd h (not_le.mpr (zpow_pos (by norm_num) _))
  have hs := log2_spec q hq
  have hlt : (2 : ℚ) ^ (-1022 : ℤ) < 2 ^ (log2 q + 1) := lt_of_le_of_lt h hs.2
  rw [zpow_lt_zpow_iff_right₀ (by norm_num)] at hlt
  have he : exponent q = log2 q := by unfold exponent; exact max_eq_left (by omega)
  rw [he]
  exact hs.1

theorem exponent_mono (x y : ℚ) (hx : x ≠ 0) (h : |x| ≤ |y|) : exponent x ≤ exponent y := by
  have hy : y ≠ 0 := by
    intro h0
    rw [h0, abs_zero] at h
    exact hx (abs_eq_zero.mp (le_antisymm h (abs_nonneg x)))
  have sx := log2_spec x hx
  have sy := log2_spec y hy
  have hlt : (2 : ℚ) ^ log2 x < 2 ^ (log2 y + 1) := lt_of_le_of_lt (le_trans sx.1 h) sy.2
  rw [zpow_lt_zpow_iff_right₀ (by norm_num)] at hlt
  unfold exponent
  exact max_le_max (by omega) le_rfl

theorem roundHalfEven_cases (x : ℚ) :
    roundHalfEven x = ⌊x⌋ ∨ (roundHalfEven x = ⌊x⌋ + 1 ∧ (1 : ℚ) / 2 ≤ x - ⌊x⌋) := by
  unfold roundHalfEven
  simp only []
  split_ifs with h1 h2 h3
  · left; rfl
  · right; exact ⟨rfl, le_of_lt h2⟩
  · left; rfl
  · right; exact ⟨rfl, not_lt.mp h1⟩

theorem le_roundHalfEven (k : ℤ) (x : ℚ) (h : (k : ℚ) ≤ x) : k ≤ roundHalfEven x := by
  have hk : k ≤ ⌊x⌋ := Int.le_floor.mpr h
  rcases roundHalfEven_cases x with h1 | ⟨h1, _⟩ <;> rw [h1] <;> omega

theorem roundHalfEven_le (k : ℤ) (x : ℚ) (h : x ≤ (k : ℚ)) : roundHalfEven x ≤ k := by
  rcases roundHalfEven_cases x with h1 | ⟨h1, h2⟩
  · rw [h1]
    have : (⌊x⌋ : ℚ) ≤ k := le_trans (Int.floor_le x) h
    exact_mod_cast this
  · rw [h1]
    have : (⌊x⌋ : ℚ) < k := by linarith
    have : ⌊x⌋ < k := by exact_mod_cast this
    omega

theorem le_round (n : ℤ) (q : ℚ) (h : (n : ℚ) * ulp q ≤ q) : (n : ℚ) * ulp q ≤ round q := by
  unfold round
  have hk : n ≤ roundHalfEven (q / ulp q) :=
    le_roundHalfEven n _ ((le_div_iff₀ (ulp_pos q)).mpr h)
  exact mul_le_mul_of_nonneg_right (by exact_mod_cast hk) (le_of_lt (ulp_pos q))

theorem round_le (n : ℤ) (q : ℚ) (h : q ≤ (n : ℚ) * ulp q) : round q ≤ (n : ℚ) * ulp q := by
  unfold round
  have hk : roundHalfEven (q / ulp q) ≤ n :=
    roundHalfEven_le n _ ((div_le_iff₀ (ulp_pos q)).mpr h)
  exact mul_le_mul_of_nonneg_right (by exact_mod_cast hk) (le_of_lt (ulp_pos q))

theorem round_nonneg (q : ℚ) (h : 0 ≤ q) : 0 ≤ round q := by
  have := le_round 0 q (by simpa using h)
  simpa using this

theorem round_nonpos (q : ℚ) (h : q ≤ 0) : round q ≤ 0 := by
  have := round_le 0 q (by simpa using h)
  simpa using this

theorem round_zero : round 0 = 0 := le_antisymm (round_nonpos 0 le_rfl) (round_nonneg 0 le_rfl)

theorem two_zpow_eq (e : ℤ) : (2 : ℚ) ^ e = ((2 ^ 52 : ℤ) : ℚ) * 2 ^ (e - 52) := by
  have h : (2 : ℚ) ^ e = 2 ^ (52 : ℤ) * 2 ^ (e - 52) := by
    rw [← zpow_add₀ (by norm_num : (2 : ℚ) ≠ 0)]; congr 1; ring
  rw [h]
  norm_num

theorem two_zpow_succ_eq (e : ℤ) : (2 : ℚ) ^ (e + 1) = ((2 ^ 53 : ℤ) : ℚ) * 2 ^ (e - 52) := by
  have h : (2 : ℚ) ^ (e + 1) = 2 ^ (53 : ℤ) * 2 ^ (e - 52) := by
    rw [← zpow_add₀ (by norm_num : (2 : ℚ) ≠ 0)]; congr 1; ring
  rw [h]
  norm_num

theorem exponent_le_abs_of_gt (q : ℚ) (hq : q ≠ 0) (h : -1022 < exponent q) :
    2 ^ exponent q ≤ |q| := by
  have he : exponent q = log2 q := by
    unfold exponent at h ⊢
    rcases max_cases (log2 q) (-1022) with ⟨h1, _⟩ | ⟨h1, _⟩
    · exact h1
    · rw [h1] at h; exact absurd h (lt_irrefl _)
  rw [he]
  exact (log2_spec q hq).1

theorem two_zpow_le_round (q : ℚ) (h : (2 : ℚ) ^ exponent q ≤ q) :
    2 ^ exponent q ≤ round q := by
  have := le_round (2 ^ 52) q (by unfold ulp; rw [← two_zpow_eq]; exact h)
  unfold ulp at this
  rw [← two_zpow_eq] at this
  exact this

theorem round_le_two_zpow (q : ℚ) (hq : 0 ≤ q) : round q ≤ 2 ^ (exponent q + 1) := by
  have hlt := abs_lt_exponent q
  rw [abs_of_nonneg hq] at hlt
  have := round_le (2 ^ 53) q (by unfold ulp; rw [← two_zpow_succ_eq]; exact le_of_lt hlt)
  unfold ulp at this
  rw [← two_zpow_succ_eq] at this
  exact this

/-- A value of the format that is at least `a`, a value of the format itself,
does not round below `a`. -/
theorem le_round_of_value (a y : ℚ) (ha : round a = a) (h0 : 0 ≤ a) (h : a ≤ y) :
    a ≤ round y := by
  rcases eq_or_lt_of_le h0 with h0 | h0
  · rw [← h0]; exact round_nonneg y (by linarith)
  · have hy : 0 < y := lt_of_lt_of_le h0 h
    have hmono : exponent a ≤ exponent y :=
      exponent_mono a y (ne_of_gt h0) (by rw [abs_of_pos h0, abs_of_pos hy]; exact h)
    rcases eq_or_lt_of_le hmono with he | he
    · have hu : ulp a = ulp y := by unfold ulp; rw [he]
      have hgrid : a = (roundHalfEven (a / ulp a) : ℚ) * ulp y := by
        rw [← hu]; exact ha.symm
      have := le_round (roundHalfEven (a / ulp a)) y (by rw [← hgrid]; exact h)
      rw [← hgrid] at this
      exact this
    · have hgt : -1022 < exponent y := lt_of_le_of_lt (exponent_ge a) he
      have h1 := exponent_le_abs_of_gt y (ne_of_gt hy) hgt
      rw [abs_of_pos hy] at h1
      have h2 := two_zpow_le_round y h1
      have h3 := abs_lt_exponent a
      rw [abs_of_pos h0] at h3
      have h4 : (2 : ℚ) ^ (exponent a + 1) ≤ 2 ^ exponent y :=
        zpow_le_zpow_right₀ (by norm_num) (by omega)
      linarith

/-- A value of the format above 1 is at least `1 + 2^-52`, so subtracting 1
from it does not round to 0. -/
theorem round_sub_one_pos (z : ℚ) (h : 1 < round z) : 0 < round (round z - 1) := by
  have hz : 0 < z := by
    by_contra hz
    have := round_nonpos z (not_lt.mp hz)
    linarith
  have hE : 0 ≤ exponent z := by
    by_contra hE
    have h1 := round_le_two_zpow z (le_of_lt hz)
    have h2 : (2 : ℚ) ^ (exponent z + 1) ≤ 2 ^ (0 : ℤ) :=
      zpow_le_zpow_right₀ (by norm_num) (by omega)
    rw [zpow_zero] at h2
    linarith
  obtain ⟨k, hk⟩ := Int.eq_ofNat_of_zero_le hE
  have hu : ulp z = ((2 ^ k : ℤ) : ℚ) * 2 ^ (-52 : ℤ) := by
    unfold ulp
    rw [hk, sub_eq_add_neg, zpow_add₀ (by norm_num : (2 : ℚ) ≠ 0), zpow_natCast]
    norm_num
  have hx : round z = ((roundHalfEven (z / ulp z) * 2 ^ k : ℤ) : ℚ) * 2 ^ (-52 : ℤ) := by
    unfold round
    rw [hu]
    push_cast
    ring
  generalize roundHalfEven (z / ulp z) * 2 ^ k = N at hx
  have hp : (0 : ℚ) < 2 ^ (-52 : ℤ) := zpow_pos (by norm_num) _
  have hone : (1 : ℚ) = ((2 ^ 52 : ℤ) : ℚ) * 2 ^ (-52 : ℤ) := by norm_num
  have hN : (2 ^ 52 : ℤ) < N := by
    rw [hx] at h
    have : ((2 ^ 52 : ℤ) : ℚ) * 2 ^ (-52 : ℤ) < (N : ℚ) * 2 ^ (-52 : ℤ) := by rw [← hone]; exact h
    have := lt_of_mul_lt_mul_right this (le_of_lt hp)
    exact_mod_cast this
  have hy : (2 : ℚ) ^ (-52 : ℤ) ≤ round z - 1 := by
    rw [hx]
    have h1 : ((2 ^ 52 + 1 : ℤ) : ℚ) ≤ (N : ℚ) := by exact_mod_cast (by omega : (2 ^ 52 + 1 : ℤ) ≤ N)
    have h2 := mul_le_mul_of_nonneg_right h1 (le_of_lt hp)
    have h3 : ((2 ^ 52 + 1 : ℤ) : ℚ) * 2 ^ (-52 : ℤ) = 1 + 2 ^ (-52 : ℤ) := by
      push_cast; norm_num
    linarith
  generalize round z - 1 = y at hy
  have hypos : 0 < y := lt_of_lt_of_le hp hy
  have hlow : (2 : ℚ) ^ (-1022 : ℤ) ≤ |y| := by
    rw [abs_of_pos hypos]
    exact le_trans (zpow_le_zpow_right₀ (by norm_num) (by norm_num)) hy
  have h1 := exponent_le_abs y hlow
  rw [abs_of_pos hypos] at h1
  have h2 := two_zpow_le_round y h1
  exact lt_of_lt_of_le (zpow_pos (by norm_num) _) h2

theorem sub_one_nonpos (x : ℚ) (h : x ≤ 1) : sub x 1 ≤ 0 :=
  round_nonpos (x - 1) (by linarith)

end Float64

end GoMine

/-! ## Facts about the phases of `Tick` -/

namespace GoMine

section Phases

variable {W B : Type}

theorem Tick.move_trace (env : Env W B) (w : W) (f : FallingBlock B) (m : Movement) :
    (Tick.move env w f m).trace = [Effect.Send m.pos m.vel] := by
  unfold Tick.move
  simp only [Run.emit]
  split_ifs <;> rfl

theorem Tick.move_w (env : Env W B) (w : W) (f : FallingBlock B) (m : Movement) :
    (Tick.move env w f m).w = env.perform w (Effect.Send m.pos m.vel) := by
  unfold Tick.move
  simp only [Run.emit]
  split_ifs <;> rfl

theorem Tick.move_panicked (env : Env W B) (w : W) (f : FallingBlock B) (m : Movement) :
    (Tick.move env w f m).panicked = false := by
  unfold Tick.move
  simp only [Run.emit]
  split_ifs <;> rfl

theorem Tick.move_f (env : Env W B) (w : W) (f : FallingBlock B) (m : Movement) :
    (Tick.move env w f m).f =
      { pos := m.pos, vel := m.vel, block := f.block,
        fallDistance := if m.vel.y < f.fallDistance then Float64.sub f.fallDistance m.vel.y else 0,
        c := { f.c with onGround := m.onGround } } := by
  unfold Tick.move
  simp only [Run.emit, Vec3.Y]
  split_ifs <;> rfl

theorem Tick.arrive_f (env : Env W B) (w : W) (f : FallingBlock B) (m : Movement) :
    (Tick.arrive env w f m).f = (Tick.move env w f m).f := by
  unfold Tick.arrive Tick.bounds
  split_ifs <;> rfl

theorem Tick.arrive_panicked (env : Env W B) (w : W) (f : FallingBlock B) (m : Movement) :
    (Tick.arrive env w f m).panicked = false := by
  unfold Tick.arrive Tick.bounds
  split_ifs <;> simp [Run.emit, Tick.move_panicked]

theorem Tick.arrive_trace (env : Env W B) (w : W) (f : FallingBlock B) (m : Movement) :
    (Tick.arrive env w f m).trace =
      if (env.PosFromVec3 m.pos).y < (env.Range (Tick.move env w f m).w).1
      then [Effect.Send m.pos m.vel, Effect.Close] else [Effect.Send m.pos m.vel] := by
  unfold Tick.arrive Tick.bounds
  split_ifs <;> simp [Run.emit, Tick.move_trace]

theorem EntitiesWithin_living (env : Env W B) (w : W) (box : BBox) (self e : Entity)
    (h : e ∈ EntitiesWithin env w box (ignores self)) : e.living = true ∧ e ≠ self := by
  unfold EntitiesWithin ignores at h
  simp only [List.mem_filter, Bool.not_eq_true', Bool.or_eq_false_iff, Bool.not_eq_false',
    beq_eq_false_iff_ne] at h
  exact ⟨h.2.1, h.2.2⟩

theorem Tick.hurtAll_living (env : Env W B) (force : ℚ) (src : B) (es : List Entity)
    (h : ∀ e ∈ es, e.living = true) (s : Run W B) :
    (Tick.hurtAll env force src es s).trace = s.trace ++ es.map (fun e => Effect.Hurt e force src) ∧
      (Tick.hurtAll env force src es s).f = s.f ∧
      (Tick.hurtAll env force src es s).panicked = s.panicked := by
  induction es generalizing s with
  | nil => simp [Tick.hurtAll]
  | cons e es ih =>
    have he : e.living = true := h e (List.mem_cons_self e es)
    have hes : ∀ x ∈ es, x.living = true := fun x hx => h x (List.mem_cons_of_mem e hx)
    obtain ⟨h1, h2, h3⟩ := ih hes (s.emit env (Effect.Hurt e force src))
    simp only [Tick.hurtAll, he, if_true]
    refine ⟨?_, ?_, ?_⟩
    · rw [h1]; simp [Run.emit]
    · rw [h2]; rfl
    · rw [h3]; rfl

theorem Tick.damage_idle (env : Env W B) (self : Entity) (s : Run W B) (m : Movement) (r : ℚ)
    (h : env.damager s.f.block = none ∨ Float64.sub s.f.fallDistance 1 ≤ 0) :
    Tick.damage env self s m r = s := by
  unfold Tick.damage
  rcases h with h | h
  · rw [h]
  · have hc : ⌈Float64.sub s.f.fallDistance 1⌉ ≤ 0 := by
      rw [Int.ceil_le]; push_cast; exact h
    have hq : ¬ ((⌈Float64.sub s.f.fallDistance 1⌉ : ℤ) : ℚ) > 0 := by
      have : ((⌈Float64.sub s.f.fallDistance 1⌉ : ℤ) : ℚ) ≤ 0 := by exact_mod_cast hc
      linarith
    split
    · simp only [hq, if_false]
    · rfl

theorem Tick.damage_run (env : Env W B) (self : Entity) (s : Run W B) (m : Movement) (r : ℚ)
    (damagePerBlock maxDamage : ℚ) (hd : env.damager s.f.block = some (damagePerBlock, maxDamage))
    (hpos : 0 < Float64.sub s.f.fallDistance 1) :
    ∃ bs : List (Effect B),
      (Tick.damage env self s m r).trace =
        s.trace ++
          (EntitiesWithin env s.w
            ((FallingBlockType.BBox.Translate m.pos).Grow (Float64.round (5 / 100)))
            (ignores self)).map
            (fun e => Effect.Hurt e
              (min ((⌊Float64.mul ((⌈Float64.sub s.f.fallDistance 1⌉ : ℤ) : ℚ) damagePerBlock⌋ : ℤ) : ℚ)
                maxDamage)
              s.f.block) ++ bs ∧
      (bs = [] ∨ bs = [Effect.Break s.f.block]) ∧
      (Tick.damage env self s m r).panicked = s.panicked := by
  have hc : 0 < ⌈Float64.sub s.f.fallDistance 1⌉ := Int.ceil_pos.mpr hpos
  have hq : ((⌈Float64.sub s.f.fallDistance 1⌉ : ℤ) : ℚ) > 0 := by exact_mod_cast hc
  obtain ⟨h1, h2, h3⟩ := Tick.hurtAll_living env
    (min ((⌊Float64.mul ((⌈Float64.sub s.f.fallDistance 1⌉ : ℤ) : ℚ) damagePerBlock⌋ : ℤ) : ℚ)
      maxDamage) s.f.block
    (EntitiesWithin env s.w
      ((FallingBlockType.BBox.Translate m.pos).Grow (Float64.round (5 / 100))) (ignores self))
    (fun e he => (EntitiesWithin_living env _ _ self e he).1) s
  unfold Tick.damage
  simp only [hd, hq, if_true]
  generalize Tick.hurtAll env
    (min ((⌊Float64.mul ((⌈Float64.sub s.f.fallDistance 1⌉ : ℤ) : ℚ) damagePerBlock⌋ : ℤ) : ℚ)
      maxDamage) s.f.block
    (EntitiesWithin env s.w
      ((FallingBlockType.BBox.Translate m.pos).Grow (Float64.round (5 / 100))) (ignores self))
    s = s1 at h1 h2 h3 ⊢
  by_cases hp : s1.panicked = true
  · refine ⟨[], ?_, Or.inl rfl, ?_⟩
    · rw [if_pos hp, h1, List.append_nil]
    · rw [if_pos hp, h3]
  · rw [if_neg hp, h2]
    split
    · split_ifs
      · refine ⟨[Effect.Break s.f.block], ?_, Or.inr rfl, ?_⟩
        · show s1.trace ++ [Effect.Break s.f.block] = _
          rw [h1]
        · exact h3
      · exact ⟨[], by rw [h1, List.append_nil], Or.inl rfl, h3⟩
    · exact ⟨[], by rw [h1, List.append_nil], Or.inl rfl, h3⟩

theorem Tick.damage_panicked (env : Env W B) (self : Entity) (s : Run W B) (m : Movement) (r : ℚ) :
    (Tick.damage env self s m r).panicked = s.panicked := by
  cases hd : env.damager s.f.block with
  | none => rw [Tick.damage_idle env self s m r (Or.inl hd)]
  | some p =>
    obtain ⟨damagePerBlock, maxDamage⟩ := p
    by_cases hpos : 0 < Float64.sub s.f.fallDistance 1
    · obtain ⟨bs, _, _, h⟩ := Tick.damage_run env self s m r damagePerBlock maxDamage hd hpos
      exact h
    · rw [Tick.damage_idle env self s m r (Or.inr (not_lt.mp hpos))]

theorem Tick.move_sub_one_pos (env : Env W B) (w : W) (f : FallingBlock B) (m : Movement)
    (h : 1 < (Tick.move env w f m).f.fallDistance) :
    0 < Float64.sub (Tick.move env w f m).f.fallDistance 1 := by
  rw [Tick.move_f] at h ⊢
  simp only [] at h ⊢
  split_ifs at h ⊢ with hv
  · exact Float64.round_sub_one_pos _ h
  · exact absurd h (by norm_num)

theorem Tick.hurtAll_f (env : Env W B) (force : ℚ) (src : B) (es : List Entity) (s : Run W B) :
    (Tick.hurtAll env force src es s).f = s.f := by
  induction es generalizing s with
  | nil => rfl
  | cons e es ih =>
    unfold Tick.hurtAll
    split_ifs
    · rw [ih]; rfl
    · rfl

theorem Tick.damage_f_exists (env : Env W B) (self : Entity) (s : Run W B) (m : Movement) (r : ℚ) :
    ∃ b : B, (Tick.damage env self s m r).f = { s.f with block := b } := by
  unfold Tick.damage
  split
  · simp only []
    by_cases h0 : ((⌈Float64.sub s.f.fallDistance 1⌉ : ℤ) : ℚ) > 0
    · rw [if_pos h0]
      split_ifs with h1 h2
      · exact ⟨s.f.block, by rw [Tick.hurtAll_f]⟩
      · split
        · rename_i b _
          exact ⟨b, by simp only [Run.emit, Tick.hurtAll_f]⟩
        · exact ⟨s.f.block, by rw [Tick.hurtAll_f]⟩
      · split
        · exact ⟨s.f.block, by rw [Tick.hurtAll_f]⟩
        · exact ⟨s.f.block, by rw [Tick.hurtAll_f]⟩
    · rw [if_neg h0]
      exact ⟨s.f.block, rfl⟩
  · exact ⟨s.f.block, rfl⟩

theorem Tick.damage_f (env : Env W B) (self : Entity) (s : Run W B) (m : Movement) (r : ℚ) :
    (Tick.damage env self s m r).f = { s.f with block := (Tick.damage env self s m r).f.block } := by
  obtain ⟨b, hb⟩ := Tick.damage_f_exists env self s m r
  rw [hb]

theorem Tick.land_f (env : Env W B) (s : Run W B) (pos : Pos) : (Tick.land env s pos).f = s.f := by
  unfold Tick.land
  split_ifs <;> rfl

theorem Tick.land_panicked (env : Env W B) (s : Run W B) (pos : Pos) :
    (Tick.land env s pos).panicked = s.panicked := by
  unfold Tick.land
  split_ifs <;> rfl

theorem Tick.land_trace (env : Env W B) (s : Run W B) (pos : Pos) :
    (Tick.land env s pos).trace =
      s.trace ++ (if env.landable s.f.block then [Effect.Landed s.f.block pos] else []) := by
  unfold Tick.land
  split_ifs
  · rfl
  · rw [List.append_nil]

theorem Tick.place_f (env : Env W B) (s : Run W B) (pos : Pos) : (Tick.place env s pos).f = s.f := by
  unfold Tick.place
  split_ifs <;> rfl

theorem Tick.place_panicked (env : Env W B) (s : Run W B) (pos : Pos) :
    (Tick.place env s pos).panicked = s.panicked := by
  unfold Tick.place
  split_ifs <;> rfl

theorem Tick.lands_arrive (env : Env W B) (w : W) (f : FallingBlock B) (m : Movement) :
    Tick.lands env (Tick.arrive env w f m) (env.PosFromVec3 m.pos) =
      ((match env.solidifiable f.block with
        | some a => a (env.PosFromVec3 m.pos) (Tick.arrive env w f m).w
        | none => false) || m.onGround) := by
  unfold Tick.lands
  rw [Tick.arrive_f, Tick.move_f]
  rfl

theorem Tick_landing (env : Env W B) (w : W) (self : Entity) (f : FallingBlock B) (m : Movement)
    (r : ℚ) (h : Tick.lands env (Tick.arrive env w f m) (env.PosFromVec3 m.pos) = true) :
    Tick env w self f m r =
      Run.emit env (Tick.place env (Tick.landed env w self f m r) (env.PosFromVec3 m.pos))
        Effect.Close := by
  unfold Tick Tick.landed
  simp only [h, if_true, Tick.damage_panicked, Tick.arrive_panicked, Bool.false_eq_true, if_false]

theorem Tick_falling (env : Env W B) (w : W) (self : Entity) (f : FallingBlock B) (m : Movement)
    (r : ℚ) (h : Tick.lands env (Tick.arrive env w f m) (env.PosFromVec3 m.pos) = false) :
    Tick env w self f m r = Tick.arrive env w f m := by
  unfold Tick
  simp only [h, Bool.false_eq_true, if_false]

theorem Tick_fallDistance (env : Env W B) (w : W) (self : Entity) (f : FallingBlock B)
    (m : Movement) (r : ℚ) :
    (Tick env w self f m r).f.fallDistance = (Tick.move env w f m).f.fallDistance := by
  cases h : Tick.lands env (Tick.arrive env w f m) (env.PosFromVec3 m.pos) with
  | false => rw [Tick_falling env w self f m r h, Tick.arrive_f]
  | true =>
    rw [Tick_landing env w self f m r h]
    show (Tick.place env (Tick.landed env w self f m r) (env.PosFromVec3 m.pos)).f.fallDistance = _
    rw [Tick.place_f, Tick.landed, Tick.land_f, Tick.damage_f, Tick.arrive_f]

theorem Tick_panicked (env : Env W B) (w : W) (self : Entity) (f : FallingBlock B)
    (m : Movement) (r : ℚ) : (Tick env w self f m r).panicked = false := by
  cases h : Tick.lands env (Tick.arrive env w f m) (env.PosFromVec3 m.pos) with
  | false => rw [Tick_falling env w self f m r h, Tick.arrive_panicked]
  | true =>
    rw [Tick_landing env w self f m r h]
    show (Tick.place env (Tick.landed env w self f m r) (env.PosFromVec3 m.pos)).panicked = _
    rw [Tick.place_panicked, Tick.landed, Tick.land_panicked, Tick.damage_panicked,
      Tick.arrive_panicked]

theorem Tick.place_trace (env : Env W B) (s : Run W B) (pos : Pos) :
    (Tick.place env s pos).trace =
      s.trace ++
        (if Tick.replaces env s pos = true then [Effect.SetBlock pos s.f.block]
         else if env.item s.f.block = true then
           [Effect.AddEntity (NewItem (NewStack s.f.block 1) (env.Vec3Middle pos))]
         else []) := by
  unfold Tick.place
  split_ifs
  · rfl
  · rfl
  · rw [List.append_nil]

theorem Tick.lands_iff (env : Env W B) (w : W) (f : FallingBlock B) (m : Movement) :
    Tick.lands env (Tick.arrive env w f m) (env.PosFromVec3 m.pos) = true ↔
      (m.onGround = true ∨
        ∃ a, env.solidifiable f.block = some a ∧
          a (env.PosFromVec3 m.pos) (Tick.arrive env w f m).w = true) := by
  rw [Tick.lands_arrive]
  cases hs : env.solidifiable f.block with
  | none => simp
  | some a =>
    simp only [Bool.or_eq_true, Option.some.injEq, exists_eq_left']
    exact Or.comm

theorem Tick.arrive_mem (env : Env W B) (w : W) (f : FallingBlock B) (m : Movement)
    (ev : Effect B) (h : ev ∈ (Tick.arrive env w f m).trace) :
    ev = Effect.Send m.pos m.vel ∨ ev = Effect.Close := by
  rw [Tick.arrive_trace] at h
  split_ifs at h
  · simpa using h
  · left; simpa using h

theorem Tick.landed_mem (env : Env W B) (w : W) (self : Entity) (f : FallingBlock B)
    (m : Movement) (r : ℚ) (ev : Effect B) (h : ev ∈ (Tick.landed env w self f m r).trace) :
    ev.isSetBlock = false ∧ ev.isAddEntity = false := by
  unfold Tick.landed at h
  rw [Tick.land_trace, List.mem_append] at h
  rcases h with h | h
  · cases hd : env.damager (Tick.arrive env w f m).f.block with
    | none =>
      rw [Tick.damage_idle env self _ m r (Or.inl hd)] at h
      rcases Tick.arrive_mem env w f m ev h with h | h <;> rw [h] <;> exact ⟨rfl, rfl⟩
    | some p =>
      obtain ⟨damagePerBlock, maxDamage⟩ := p
      by_cases hfd : 0 < Float64.sub (Tick.arrive env w f m).f.fallDistance 1
      · obtain ⟨bs, h1, h2, _⟩ := Tick.damage_run env self _ m r damagePerBlock maxDamage hd hfd
        rw [h1, List.mem_append, List.mem_append, List.mem_map] at h
        rcases h with (h | ⟨e, _, h⟩) | h
        · rcases Tick.arrive_mem env w f m ev h with h | h <;> rw [h] <;> exact ⟨rfl, rfl⟩
        · rw [← h]; exact ⟨rfl, rfl⟩
        · rcases h2 with h2 | h2
          · rw [h2] at h; cases h
          · rw [h2, List.mem_singleton] at h; rw [h]; exact ⟨rfl, rfl⟩
      · rw [Tick.damage_idle env self _ m r (Or.inr (not_lt.mp hfd))] at h
        rcases Tick.arrive_mem env w f m ev h with h | h <;> rw [h] <;> exact ⟨rfl, rfl⟩
  · split_ifs at h
    · rw [List.mem_singleton] at h; rw [h]; exact ⟨rfl, rfl⟩
    · cases h

theorem Tick_trace_damaging (env : Env W B) (w : W) (self : Entity) (f : FallingBlock B)
    (m : Movement) (r : ℚ) (damagePerBlock maxDamage : ℚ)
    (hl : Tick.lands env (Tick.arrive env w f m) (env.PosFromVec3 m.pos) = true)
    (hd : env.damager f.block = some (damagePerBlock, maxDamage))
    (hfd : 1 < (Tick.move env w f m).f.fallDistance) :
    ∃ post : List (Effect B),
      (Tick env w self f m r).trace =
        (Tick.arrive env w f m).trace ++
          (EntitiesWithin env (Tick.arrive env w f m).w
            ((FallingBlockType.BBox.Translate m.pos).Grow (Float64.round (5 / 100))) (ignores self)).map
            (fun e => Effect.Hurt e
              (min ((⌊Float64.mul ((⌈Float64.sub (Tick.move env w f m).f.fallDistance 1⌉ : ℤ) : ℚ) damagePerBlock⌋ : ℤ) : ℚ)
                maxDamage) f.block) ++ post ∧
      ∀ ev ∈ post, ev.isHurt = false := by
  have hb : (Tick.arrive env w f m).f.block = f.block := by rw [Tick.arrive_f, Tick.move_f]
  have hfd' : 0 < Float64.sub (Tick.arrive env w f m).f.fallDistance 1 := by
    rw [Tick.arrive_f]; exact Tick.move_sub_one_pos env w f m hfd
  have hd' : env.damager (Tick.arrive env w f m).f.block = some (damagePerBlock, maxDamage) := by
    rw [hb]; exact hd
  obtain ⟨bs, h1, h2, _⟩ :=
    Tick.damage_run env self (Tick.arrive env w f m) m r damagePerBlock maxDamage hd' hfd'
  have hfa : (Tick.arrive env w f m).f.fallDistance = (Tick.move env w f m).f.fallDistance := by
    rw [Tick.arrive_f]
  rw [hb] at h2
  rw [hb, hfa] at h1
  rw [Tick_landing env w self f m r hl]
  show ∃ post, (Tick.place env (Tick.landed env w self f m r) (env.PosFromVec3 m.pos)).trace ++
      [Effect.Close] = _ ∧ _
  rw [Tick.place_trace, Tick.landed, Tick.land_trace, h1]
  simp only [List.append_assoc]
  refine ⟨_, rfl, ?_⟩
  intro ev hev
  simp only [List.mem_append, List.mem_singleton] at hev
  rcases hev with hev | hev | hev | hev
  · rcases h2 with h2 | h2
    · rw [h2] at hev; cases hev
    · rw [h2, List.mem_singleton] at hev; rw [hev]; rfl
  · split_ifs at hev
    · rw [List.mem_singleton] at hev; rw [hev]; rfl
    · cases hev
  · split_ifs at hev
    · rw [List.mem_singleton] at hev; rw [hev]; rfl
    · rw [List.mem_singleton] at hev; rw [hev]; rfl
    · cases hev
  · rw [hev]; rfl

theorem Tick_hurts (env : Env W B) (w : W) (self : Entity) (f : FallingBlock B)
    (m : Movement) (r : ℚ) (damagePerBlock maxDamage : ℚ)
    (hl : Tick.lands env (Tick.arrive env w f m) (env.PosFromVec3 m.pos) = true)
    (hd : env.damager f.block = some (damagePerBlock, maxDamage))
    (hfd : 1 < (Tick.move env w f m).f.fallDistance) :
    (Tick env w self f m r).trace.filter Effect.isHurt =
      (EntitiesWithin env (Tick.arrive env w f m).w
        ((FallingBlockType.BBox.Translate m.pos).Grow (Float64.round (5 / 100))) (ignores self)).map
        (fun e => Effect.Hurt e
          (min ((⌊Float64.mul ((⌈Float64.sub (Tick.move env w f m).f.fallDistance 1⌉ : ℤ) : ℚ) damagePerBlock⌋ : ℤ) : ℚ)
            maxDamage) f.block) := by
  obtain ⟨post, h1, h2⟩ := Tick_trace_damaging env w self f m r damagePerBlock maxDamage hl hd hfd
  have hpre : (Tick.arrive env w f m).trace.filter Effect.isHurt = [] := by
    rw [List.filter_eq_nil_iff]
    intro ev hev
    rcases Tick.arrive_mem env w f m ev hev with h | h <;> rw [h] <;> simp [Effect.isHurt]
  have hpost : post.filter Effect.isHurt = [] := by
    rw [List.filter_eq_nil_iff]
    intro ev hev
    rw [h2 ev hev]
    simp
  rw [h1, List.filter_append, List.filter_append, hpre, hpost, List.nil_append, List.append_nil,
    List.filter_eq_self]
  intro ev hev
  rw [List.mem_map] at hev
  obtain ⟨e, _, he⟩ := hev
  rw [← he]
  rfl

theorem Tick.damage_block (env : Env W B) (self : Entity) (s : Run W B) (m : Movement) (r : ℚ) :
    (Tick.damage env self s m r).f.block = s.f.block ∨
      env.breakable s.f.block = some (Tick.damage env self s m r).f.block := by
  unfold Tick.damage
  split
  · simp only []
    by_cases h0 : ((⌈Float64.sub s.f.fallDistance 1⌉ : ℤ) : ℚ) > 0
    · rw [if_pos h0]
      split_ifs with h1 h2
      · left; rw [Tick.hurtAll_f]
      · split
        · rename_i b hb
          right
          rw [Tick.hurtAll_f] at hb
          exact hb
        · left; rw [Tick.hurtAll_f]
      · split
        · left; rw [Tick.hurtAll_f]
        · left; rw [Tick.hurtAll_f]
    · rw [if_neg h0]
      left; rfl
  · left; rfl

theorem Tick.move_setOnGround (env : Env W B) (w : W) (f : FallingBlock B) (pos vel : Vec3)
    (b b' : Bool) :
    Tick.move env w f ⟨pos, vel, b⟩ = (Tick.move env w f ⟨pos, vel, b'⟩).setOnGround b := by
  unfold Tick.move
  simp only [Run.emit, Vec3.Y]
  split_ifs <;> rfl

theorem Tick.bounds_setOnGround (env : Env W B) (s : Run W B) (pos : Pos) (b : Bool) :
    Tick.bounds env (s.setOnGround b) pos = (Tick.bounds env s pos).setOnGround b := by
  unfold Tick.bounds
  show (if pos.y < (env.Range s.w).1 then _ else _) = _
  split_ifs <;> rfl

theorem Tick.hurtAll_setOnGround (env : Env W B) (force : ℚ) (src : B) (es : List Entity)
    (s : Run W B) (b : Bool) :
    Tick.hurtAll env force src es (s.setOnGround b) =
      (Tick.hurtAll env force src es s).setOnGround b := by
  induction es generalizing s with
  | nil => rfl
  | cons e es ih =>
    unfold Tick.hurtAll
    split_ifs
    · exact ih (s.emit env (Effect.Hurt e force src))
    · rfl

theorem Run.setOnGround_w (s : Run W B) (b : Bool) : (s.setOnGround b).w = s.w := rfl

theorem Run.setOnGround_panicked (s : Run W B) (b : Bool) :
    (s.setOnGround b).panicked = s.panicked := rfl

theorem Run.setOnGround_trace (s : Run W B) (b : Bool) : (s.setOnGround b).trace = s.trace := rfl

theorem Run.setOnGround_block (s : Run W B) (b : Bool) : (s.setOnGround b).f.block = s.f.block := rfl

theorem Run.setOnGround_fallDistance (s : Run W B) (b : Bool) :
    (s.setOnGround b).f.fallDistance = s.f.fallDistance := rfl

theorem Tick.damage_setOnGround (env : Env W B) (self : Entity) (s : Run W B) (m : Movement)
    (r : ℚ) (b : Bool) :
    Tick.damage env self (s.setOnGround b) m r = (Tick.damage env self s m r).setOnGround b := by
  unfold Tick.damage
  simp only [Run.setOnGround_block, Run.setOnGround_fallDistance, Run.setOnGround_w]
  split
  · by_cases h0 : ((⌈Float64.sub s.f.fallDistance 1⌉ : ℤ) : ℚ) > 0
    · rw [if_pos h0, if_pos h0, Tick.hurtAll_setOnGround]
      simp only [Run.setOnGround_block, Run.setOnGround_panicked]
      generalize Tick.hurtAll env _ s.f.block (EntitiesWithin env s.w _ _) s = s1
      split_ifs with h1 h2
      · rfl
      · split <;> rfl
      · split <;> rfl
    · rw [if_neg h0, if_neg h0]
  · rfl

theorem Tick.land_setOnGround (env : Env W B) (s : Run W B) (pos : Pos) (b : Bool) :
    Tick.land env (s.setOnGround b) pos = (Tick.land env s pos).setOnGround b := by
  unfold Tick.land
  simp only [Run.setOnGround_block]
  split_ifs <;> rfl

theorem Tick.place_setOnGround (env : Env W B) (s : Run W B) (pos : Pos) (b : Bool) :
    Tick.place env (s.setOnGround b) pos = (Tick.place env s pos).setOnGround b := by
  have h : Tick.replaces env (s.setOnGround b) pos = Tick.replaces env s pos := rfl
  unfold Tick.place
  rw [h]
  simp only [Run.setOnGround_block]
  split_ifs <;> rfl

theorem Tick.arrive_setOnGround (env : Env W B) (w : W) (f : FallingBlock B) (pos vel : Vec3)
    (b b' : Bool) :
    Tick.arrive env w f ⟨pos, vel, b⟩ = (Tick.arrive env w f ⟨pos, vel, b'⟩).setOnGround b := by
  unfold Tick.arrive
  rw [Tick.move_setOnGround env w f pos vel b b', Tick.bounds_setOnGround]

theorem Tick.landed_filter (env : Env W B) (w : W) (self : Entity) (f : FallingBlock B)
    (m : Movement) (r : ℚ) :
    (Tick.landed env w self f m r).trace.filter Effect.isSetBlock = [] ∧
      (Tick.landed env w self f m r).trace.filter Effect.isAddEntity = [] := by
  constructor
  · rw [List.filter_eq_nil_iff]
    intro ev hev
    rw [(Tick.landed_mem env w self f m r ev hev).1]
    simp
  · rw [List.filter_eq_nil_iff]
    intro ev hev
    rw [(Tick.landed_mem env w self f m r ev hev).2]
    simp

theorem Tick.landed_block (env : Env W B) (w : W) (self : Entity) (f : FallingBlock B)
    (m : Movement) (r : ℚ) :
    (Tick.landed env w self f m r).f.block = f.block ∨
      env.breakable f.block = some (Tick.landed env w self f m r).f.block := by
  have hb : (Tick.arrive env w f m).f.block = f.block := by rw [Tick.arrive_f, Tick.move_f]
  have h := Tick.damage_block env self (Tick.arrive env w f m) m r
  rw [hb] at h
  unfold Tick.landed
  rw [Tick.land_f]
  exact h

end Phases

/-! ## The claims -/

section Claims

variable {W B : Type}

/-- C1 (the code at a failing input): falling powder whose movement ends in
block `(0, -1, 0)`, below the lower bound 0 of a world of air, in mid-air. The
position is below the world and the entity is closed, and yet the tick goes on
to the landing effects, because the payload solidifies: it places the block
with `SetBlock` and closes the entity a second time. -/
theorem Tick_below_world_still_lands :
    (Demo.env.PosFromVec3 Demo.abyss.pos).y <
        (Demo.env.Range (Tick.move Demo.env Demo.airWorld Demo.dust Demo.abyss).w).1 ∧
      (Tick Demo.env Demo.airWorld Demo.self Demo.dust Demo.abyss (1 / 2)).trace =
        [Effect.Send ⟨0, -1, 0⟩ ⟨0, -1, 0⟩, Effect.Close,
          Effect.SetBlock ⟨0, -1, 0⟩ Demo.Blk.powder, Effect.Close] := by
  decide!

/-- C9: when the landing block position is not below the world's lower bound,
the movement computer reports no ground contact and the payload is not
solidifiable or answers false, `Tick` makes the `Send` call and nothing else:
no `Close`, no `Hurt`, `Break`, `Landed`, `SetBlock` or `AddEntity`, and the
payload block is unchanged. -/
theorem Tick_keeps_falling (env : Env W B) (w : W) (self : Entity) (f : FallingBlock B)
    (m : Movement) (r : ℚ)
    (hb : ¬ (env.PosFromVec3 m.pos).y < (env.Range (Tick.move env w f m).w).1)
    (hg : m.onGround = false)
    (hs : env.solidifiable f.block = none ∨
      ∃ a, env.solidifiable f.block = some a ∧
        a (env.PosFromVec3 m.pos) (Tick.arrive env w f m).w = false) :
    (Tick env w self f m r).trace = [Effect.Send m.pos m.vel] ∧
      (∀ ev ∈ (Tick env w self f m r).trace, ev.isClose = false ∧ ev.isLanding = false) ∧
      (Tick env w self f m r).f.block = f.block ∧
      (Tick env w self f m r).panicked = false := by
  have hl : Tick.lands env (Tick.arrive env w f m) (env.PosFromVec3 m.pos) = false := by
    rw [Tick.lands_arrive, hg]
    rcases hs with hs | ⟨a, hs, ha⟩
    · rw [hs]; rfl
    · rw [hs]; simp only [ha]; rfl
  have ht : (Tick env w self f m r).trace = [Effect.Send m.pos m.vel] := by
    rw [Tick_falling env w self f m r hl, Tick.arrive_trace, if_neg hb]
  refine ⟨ht, ?_, ?_, Tick_panicked env w self f m r⟩
  · intro ev hev
    rw [ht, List.mem_singleton] at hev
    rw [hev]
    exact ⟨rfl, rfl⟩
  · rw [Tick_falling env w self f m r hl, Tick.arrive_f, Tick.move_f]

/-- C10 (as stated, refuted): the fall distance after the tick is not always
`fd + |vy|`. Sand with the fall distance `2 ^ 53` that moves down at
`vy = -1` has the fall distance `2 ^ 53` after the tick, not `2 ^ 53 + 1`;
and with the fall distance `0.1` and `vy = -0.2` (as float64 values) the fall
distance after the tick is `1351079888211149 / 2 ^ 52`, which is not the sum
of the two. -/
theorem Tick_fall_distance_not_exact :
    (0 ≤ Demo.giant.FallDistance ∧ Demo.step.vel.Y ≤ 0 ∧
      (Tick Demo.env Demo.stoneWorld Demo.self Demo.giant Demo.step (1 / 2)).f.FallDistance =
        9007199254740992 ∧
      (Tick Demo.env Demo.stoneWorld Demo.self Demo.giant Demo.step (1 / 2)).f.FallDistance ≠
        Demo.giant.FallDistance + |Demo.step.vel.Y|) ∧
    (0 ≤ Demo.speck.FallDistance ∧ Demo.slip.vel.Y ≤ 0 ∧
      (Tick Demo.env Demo.stoneWorld Demo.self Demo.speck Demo.slip (1 / 2)).f.FallDistance =
        1351079888211149 / 4503599627370496 ∧
      (Tick Demo.env Demo.stoneWorld Demo.self Demo.speck Demo.slip (1 / 2)).f.FallDistance ≠
        Demo.speck.FallDistance + |Demo.slip.vel.Y|) := by
  decide!

/-- C10 (amended): with a fall distance `fd ≥ 0` before the tick and a
post-movement vertical velocity `vy ≤ 0`, the fall distance after the tick is
the float64 sum of `fd` and `|vy|`, that is `fd + |vy|` rounded to the nearest
float64; it is `fd + |vy|` itself whenever that sum is a float64 value, and,
`fd` being a float64 value, it is at least `fd`; and whenever `vy ≥ fd` the
fall distance after the tick is 0. -/
theorem Tick_fall_distance_update (env : Env W B) (w : W) (self : Entity) (f : FallingBlock B)
    (m : Movement) (r : ℚ) :
    (0 ≤ f.FallDistance → m.vel.Y ≤ 0 →
      (Tick env w self f m r).f.FallDistance = Float64.add f.FallDistance |m.vel.Y| ∧
        (Float64.round (f.FallDistance + |m.vel.Y|) = f.FallDistance + |m.vel.Y| →
          (Tick env w self f m r).f.FallDistance = f.FallDistance + |m.vel.Y|) ∧
        (Float64.round f.FallDistance = f.FallDistance →
          f.FallDistance ≤ (Tick env w self f m r).f.FallDistance)) ∧
    (f.FallDistance ≤ m.vel.Y → (Tick env w self f m r).f.FallDistance = 0) := by
  unfold FallingBlock.FallDistance Vec3.Y
  rw [Tick_fallDistance, Tick.move_f]
  simp only []
  constructor
  · intro h0 hv
    rw [abs_of_nonpos hv]
    have key : (if m.vel.y < f.fallDistance then Float64.sub f.fallDistance m.vel.y else 0) =
        Float64.add f.fallDistance (-m.vel.y) := by
      split_ifs with h
      · unfold Float64.sub Float64.add
        rw [sub_eq_add_neg]
      · have h1 : f.fallDistance = 0 := by linarith
        have h2 : m.vel.y = 0 := by linarith
        rw [h1, h2]
        unfold Float64.add
        rw [neg_zero, add_zero, Float64.round_zero]
    rw [key]
    refine ⟨rfl, ?_, ?_⟩
    · intro hex
      unfold Float64.add
      exact hex
    · intro hval
      unfold Float64.add
      exact Float64.le_round_of_value _ _ hval h0 (by linarith)
  · intro h
    rw [if_neg (not_lt.mpr h)]

/-- C2 (as stated, refuted): the amount passed to `Hurt` is not always
`min(floor(ceil(fd - 1) * damagePerBlock), maxDamage)` with the product taken
exactly. A spike that reports `damagePerBlock = 0.7` (the float64
`3152519739159347 / 2 ^ 52`) and `maxDamage = 20` lands with the fall distance
11: `mob` is hurt by 7, while the floor of the exact product
`10 * damagePerBlock` is 6. -/
theorem Tick_hurt_amount_not_exact :
    Demo.touchdown.onGround = true ∧
      Demo.env.damager Demo.spiky.block = some (3152519739159347 / 4503599627370496, 20) ∧
      (Tick.move Demo.env Demo.airWorld Demo.spiky Demo.touchdown).f.FallDistance = 11 ∧
      Effect.Hurt Demo.mob 7 Demo.Blk.spike ∈
        (Tick Demo.env Demo.airWorld Demo.self Demo.spiky Demo.touchdown (1 / 2)).trace ∧
      min ((⌊((⌈(Tick.move Demo.env Demo.airWorld Demo.spiky Demo.touchdown).f.FallDistance - 1⌉ : ℤ) : ℚ)
        * (3152519739159347 / 4503599627370496)⌋ : ℤ) : ℚ) 20 = 6 ∧
      ¬ (∀ e force src, Effect.Hurt e force src ∈
          (Tick Demo.env Demo.airWorld Demo.self Demo.spiky Demo.touchdown (1 / 2)).trace →
        force = min ((⌊((⌈(Tick.move Demo.env Demo.airWorld Demo.spiky
          Demo.touchdown).f.FallDistance - 1⌉ : ℤ) : ℚ)
          * (3152519739159347 / 4503599627370496)⌋ : ℤ) : ℚ) 20) := by
  refine ⟨rfl, rfl, by decide!, by decide!, by decide!, ?_⟩
  intro h
  have h7 := h Demo.mob 7 Demo.Blk.spike (by decide!)
  exact absurd h7 (by decide!)

/-- C2 (amended): on a landing tick (ground contact, or a solidifiable payload
that answers true) whose payload is a damager reporting `(damagePerBlock,
maxDamage)` and whose fall distance `fd` after the accumulator update is
greater than 1, every `Hurt` call of the tick passes the amount
`min(floor(ceil(fd - 1) * damagePerBlock), maxDamage)` as float64 arithmetic
computes it, the difference `fd - 1` and the product each rounded to the
nearest float64 before `Ceil` and `Floor` are taken, and every entity the
world query returns receives a `Hurt` call with that amount; with
`damagePerBlock = 2`, `maxDamage = 20` and `fd = 6` the amount is 10. -/
theorem Tick_hurt_amount (env : Env W B) (w : W) (self : Entity) (f : FallingBlock B)
    (m : Movement) (r : ℚ) (damagePerBlock maxDamage : ℚ)
    (hland : m.onGround = true ∨
      ∃ a, env.solidifiable f.block = some a ∧
        a (env.PosFromVec3 m.pos) (Tick.arrive env w f m).w = true)
    (hd : env.damager f.block = some (damagePerBlock, maxDamage))
    (hfd : 1 < (Tick.move env w f m).f.FallDistance) :
    (∀ e force src, Effect.Hurt e force src ∈ (Tick env w self f m r).trace →
      force = min ((⌊Float64.mul ((⌈Float64.sub (Tick.move env w f m).f.FallDistance 1⌉ : ℤ) : ℚ)
        damagePerBlock⌋ : ℤ) : ℚ) maxDamage) ∧
    (∀ e ∈ EntitiesWithin env (Tick.arrive env w f m).w
        ((FallingBlockType.BBox.Translate m.pos).Grow (Float64.round (5 / 100))) (ignores self),
      Effect.Hurt e
        (min ((⌊Float64.mul ((⌈Float64.sub (Tick.move env w f m).f.FallDistance 1⌉ : ℤ) : ℚ)
          damagePerBlock⌋ : ℤ) : ℚ) maxDamage) f.block ∈ (Tick env w self f m r).trace) ∧
    (damagePerBlock = 2 → maxDamage = 20 → (Tick.move env w f m).f.FallDistance = 6 →
      ∀ e force src, Effect.Hurt e force src ∈ (Tick env w self f m r).trace → force = 10) := by
  have hl := (Tick.lands_iff env w f m).mpr hland
  unfold FallingBlock.FallDistance at hfd ⊢
  have hh := Tick_hurts env w self f m r damagePerBlock maxDamage hl hd hfd
  have hamount : ∀ e force src, Effect.Hurt e force src ∈ (Tick env w self f m r).trace →
      force = min ((⌊Float64.mul ((⌈Float64.sub (Tick.move env w f m).f.fallDistance 1⌉ : ℤ) : ℚ)
        damagePerBlock⌋ : ℤ) : ℚ) maxDamage := by
    intro e force src hmem
    have h1 : Effect.Hurt e force src ∈ (Tick env w self f m r).trace.filter Effect.isHurt :=
      List.mem_filter.mpr ⟨hmem, rfl⟩
    rw [hh, List.mem_map] at h1
    obtain ⟨e', _, he'⟩ := h1
    injection he' with _ h2 _
    exact h2.symm
  refine ⟨hamount, ?_, ?_⟩
  rotate_left
  · intro h2 h20 h6 e force src hmem
    rw [hamount e force src hmem, h2, h20, h6]
    decide!
  · intro e he
    have h1 : Effect.Hurt e
        (min ((⌊Float64.mul ((⌈Float64.sub (Tick.move env w f m).f.fallDistance 1⌉ : ℤ) : ℚ)
          damagePerBlock⌋ : ℤ) : ℚ) maxDamage) f.block ∈
          (Tick env w self f m r).trace.filter Effect.isHurt := by
      rw [hh]
      exact List.mem_map.mpr ⟨e, he, rfl⟩
    exact (List.mem_filter.mp h1).1

/-- C3: on a landing tick whose fall distance after the accumulator update is
at most 1, no effect of the tick is a `Hurt` or a `Break` call and the payload
block is the one the tick started with, whatever the payload reports as a
damager. -/
theorem Tick_no_damage_within_one_block (env : Env W B) (w : W) (self : Entity)
    (f : FallingBlock B) (m : Movement) (r : ℚ)
    (hland : m.onGround = true ∨
      ∃ a, env.solidifiable f.block = some a ∧
        a (env.PosFromVec3 m.pos) (Tick.arrive env w f m).w = true)
    (hfd : (Tick.move env w f m).f.FallDistance ≤ 1) :
    (∀ ev ∈ (Tick env w self f m r).trace, ev.isHurt = false ∧ ev.isBreak = false) ∧
      (Tick env w self f m r).f.block = f.block := by
  have hl := (Tick.lands_iff env w f m).mpr hland
  unfold FallingBlock.FallDistance at hfd
  have hidle : Tick.damage env self (Tick.arrive env w f m) m r = Tick.arrive env w f m :=
    Tick.damage_idle env self _ m r
      (Or.inr (by rw [Tick.arrive_f]; exact Float64.sub_one_nonpos _ hfd))
  rw [Tick_landing env w self f m r hl]
  constructor
  · intro ev hev
    have hev' : ev ∈ (Tick.place env (Tick.landed env w self f m r) (env.PosFromVec3 m.pos)).trace ++
        [Effect.Close] := hev
    rw [Tick.place_trace, Tick.landed, Tick.land_trace, hidle] at hev'
    simp only [List.mem_append, List.mem_singleton] at hev'
    rcases hev' with ((hev' | hev') | hev') | hev'
    · rcases Tick.arrive_mem env w f m ev hev' with h | h <;> rw [h] <;> exact ⟨rfl, rfl⟩
    · split_ifs at hev'
      · rw [List.mem_singleton] at hev'; rw [hev']; exact ⟨rfl, rfl⟩
      · cases hev'
    · split_ifs at hev'
      · rw [List.mem_singleton] at hev'; rw [hev']; exact ⟨rfl, rfl⟩
      · rw [List.mem_singleton] at hev'; rw [hev']; exact ⟨rfl, rfl⟩
      · cases hev'
    · rw [hev']; exact ⟨rfl, rfl⟩
  · show (Tick.place env (Tick.landed env w self f m r) (env.PosFromVec3 m.pos)).f.block = _
    rw [Tick.place_f, Tick.landed, Tick.land_f, hidle, Tick.arrive_f, Tick.move_f]

/-- C5: when the payload is solidifiable and answers true, the tick on which
the movement computer reports no ground contact is the tick on which it
reports ground contact, with the ground-contact flag put back to false: the
same calls in the same order (for the same random draw), the same world, and
the same position, velocity, payload block and fall distance of the entity. -/
theorem Tick_solidify_as_on_ground (env : Env W B) (w : W) (self : Entity) (f : FallingBlock B)
    (pos vel : Vec3) (r : ℚ) (a : Pos → W → Bool)
    (hs : env.solidifiable f.block = some a)
    (ha : a (env.PosFromVec3 pos) (Tick.arrive env w f ⟨pos, vel, false⟩).w = true) :
    Tick env w self f ⟨pos, vel, false⟩ r =
        (Tick env w self f ⟨pos, vel, true⟩ r).setOnGround false ∧
      (Tick env w self f ⟨pos, vel, false⟩ r).trace = (Tick env w self f ⟨pos, vel, true⟩ r).trace ∧
      (Tick env w self f ⟨pos, vel, false⟩ r).w = (Tick env w self f ⟨pos, vel, true⟩ r).w ∧
      (Tick env w self f ⟨pos, vel, false⟩ r).panicked =
        (Tick env w self f ⟨pos, vel, true⟩ r).panicked ∧
      (Tick env w self f ⟨pos, vel, false⟩ r).f.pos = (Tick env w self f ⟨pos, vel, true⟩ r).f.pos ∧
      (Tick env w self f ⟨pos, vel, false⟩ r).f.vel = (Tick env w self f ⟨pos, vel, true⟩ r).f.vel ∧
      (Tick env w self f ⟨pos, vel, false⟩ r).f.block =
        (Tick env w self f ⟨pos, vel, true⟩ r).f.block ∧
      (Tick env w self f ⟨pos, vel, false⟩ r).f.fallDistance =
        (Tick env w self f ⟨pos, vel, true⟩ r).f.fallDistance ∧
      (Tick env w self f ⟨pos, vel, true⟩ r).trace.getLast? = some Effect.Close := by
  have hair : Tick.lands env (Tick.arrive env w f ⟨pos, vel, false⟩)
      (env.PosFromVec3 (Movement.mk pos vel false).pos) = true :=
    (Tick.lands_iff env w f ⟨pos, vel, false⟩).mpr (Or.inr ⟨a, hs, ha⟩)
  have hgnd : Tick.lands env (Tick.arrive env w f ⟨pos, vel, true⟩)
      (env.PosFromVec3 (Movement.mk pos vel true).pos) = true :=
    (Tick.lands_iff env w f ⟨pos, vel, true⟩).mpr (Or.inl rfl)
  have key : Tick env w self f ⟨pos, vel, false⟩ r =
      (Tick env w self f ⟨pos, vel, true⟩ r).setOnGround false := by
    rw [Tick_landing env w self f ⟨pos, vel, false⟩ r hair,
      Tick_landing env w self f ⟨pos, vel, true⟩ r hgnd]
    unfold Tick.landed
    rw [Tick.arrive_setOnGround env w f pos vel false true]
    show Run.emit env (Tick.place env (Tick.land env (Tick.damage env self
      ((Tick.arrive env w f ⟨pos, vel, true⟩).setOnGround false) ⟨pos, vel, true⟩ r)
      (env.PosFromVec3 pos)) (env.PosFromVec3 pos)) Effect.Close = _
    rw [Tick.damage_setOnGround, Tick.land_setOnGround, Tick.place_setOnGround]
    rfl
  refine ⟨key, ?_, ?_, ?_, ?_, ?_, ?_, ?_, ?_⟩
  · rw [key]; rfl
  · rw [key]; rfl
  · rw [key]; rfl
  · rw [key]; rfl
  · rw [key]; rfl
  · rw [key]; rfl
  · rw [key]; rfl
  · rw [Tick_landing env w self f ⟨pos, vel, true⟩ r hgnd]
    show (_ ++ [Effect.Close]).getLast? = _
    rw [List.getLast?_append]
    rfl

/-- C8: on a damaging landing tick (a landing tick whose payload is a damager
and whose fall distance after the accumulator update is greater than 1) the
`Hurt` calls are, in order and one for each, the entities the world query
returns for the box of the falling block translated to the new position and
grown by 0.05, all with one and the same amount and the payload as source; the query
returns the entities in that box for which `ignores` is false; `ignores e` is
true exactly when `e` is not living or is the falling block itself; so every
entity hurt is living and is not the falling block, and the `Living` type
assertion never fails. -/
theorem Tick_hurts_who (env : Env W B) (w : W) (self : Entity) (f : FallingBlock B)
    (m : Movement) (r : ℚ) (damagePerBlock maxDamage : ℚ)
    (hland : m.onGround = true ∨
      ∃ a, env.solidifiable f.block = some a ∧
        a (env.PosFromVec3 m.pos) (Tick.arrive env w f m).w = true)
    (hd : env.damager f.block = some (damagePerBlock, maxDamage))
    (hfd : 1 < (Tick.move env w f m).f.FallDistance) :
    (∃ force : ℚ, (Tick env w self f m r).trace.filter Effect.isHurt =
        (EntitiesWithin env (Tick.arrive env w f m).w
          ((FallingBlockType.BBox.Translate m.pos).Grow (Float64.round (5 / 100)))
          (ignores self)).map (fun e => Effect.Hurt e force f.block)) ∧
      EntitiesWithin env (Tick.arrive env w f m).w
          ((FallingBlockType.BBox.Translate m.pos).Grow (Float64.round (5 / 100))) (ignores self) =
        (env.entitiesIn (Tick.arrive env w f m).w
          (((Box (Float64.round (-(49 / 100))) 0 (Float64.round (-(49 / 100)))
            (Float64.round (49 / 100)) (Float64.round (98 / 100))
            (Float64.round (49 / 100))).Translate m.pos).Grow
            (Float64.round (5 / 100)))).filter (fun e => ignores self e = false) ∧
      (∀ e, ignores self e = true ↔ (e.living = false ∨ e = self)) ∧
      (∀ e force src, Effect.Hurt e force src ∈ (Tick env w self f m r).trace →
        e.living = true ∧ e ≠ self) ∧
      (Tick env w self f m r).panicked = false := by
  have hl := (Tick.lands_iff env w f m).mpr hland
  unfold FallingBlock.FallDistance at hfd
  have hh := Tick_hurts env w self f m r damagePerBlock maxDamage hl hd hfd
  refine ⟨⟨_, hh⟩, ?_, ?_, ?_, Tick_panicked env w self f m r⟩
  · unfold EntitiesWithin FallingBlockType.BBox
    congr 1
    funext e
    cases ignores self e <;> rfl
  · intro e
    unfold ignores
    simp only [Bool.or_eq_true, Bool.not_eq_true', beq_iff_eq]
  · intro e force src hmem
    have h1 : Effect.Hurt e force src ∈ (Tick env w self f m r).trace.filter Effect.isHurt :=
      List.mem_filter.mpr ⟨hmem, rfl⟩
    rw [hh, List.mem_map] at h1
    obtain ⟨e', he', heq⟩ := h1
    injection heq with h2 _ _
    rw [← h2]
    exact EntitiesWithin_living env _ _ self e' he'

/-- C4: on a landing tick, with `b` the world block read at the landing
position and `p` the payload the entity then holds (the payload of the tick's
start, or its broken variant when it broke on this tick): if `b` is
replaceable and `ReplaceableBy(p)` is true, the tick makes exactly one
`SetBlock` call, at the landing position with `p`, and no `AddEntity` call;
if `b` is not replaceable or answers false and `p` is an item, the tick makes
exactly one `AddEntity` call, with an item entity holding a stack of 1 of `p`
at `pos.Vec3Middle()`, and no `SetBlock` call; otherwise it makes neither. -/
theorem Tick_placement (env : Env W B) (w : W) (self : Entity) (f : FallingBlock B)
    (m : Movement) (r : ℚ)
    (hland : m.onGround = true ∨
      ∃ a, env.solidifiable f.block = some a ∧
        a (env.PosFromVec3 m.pos) (Tick.arrive env w f m).w = true) :
    (Tick.replaces env (Tick.landed env w self f m r) (env.PosFromVec3 m.pos) = true →
      (Tick env w self f m r).trace.filter Effect.isSetBlock =
          [Effect.SetBlock (env.PosFromVec3 m.pos) (Tick.landed env w self f m r).f.block] ∧
        (Tick env w self f m r).trace.filter Effect.isAddEntity = []) ∧
    (Tick.replaces env (Tick.landed env w self f m r) (env.PosFromVec3 m.pos) = false →
      env.item (Tick.landed env w self f m r).f.block = true →
      (Tick env w self f m r).trace.filter Effect.isAddEntity =
          [Effect.AddEntity (NewItem (NewStack (Tick.landed env w self f m r).f.block 1)
            (env.Vec3Middle (env.PosFromVec3 m.pos)))] ∧
        (Tick env w self f m r).trace.filter Effect.isSetBlock = []) ∧
    (Tick.replaces env (Tick.landed env w self f m r) (env.PosFromVec3 m.pos) = false →
      env.item (Tick.landed env w self f m r).f.block = false →
      (Tick env w self f m r).trace.filter Effect.isSetBlock = [] ∧
        (Tick env w self f m r).trace.filter Effect.isAddEntity = []) ∧
    (Tick.replaces env (Tick.landed env w self f m r) (env.PosFromVec3 m.pos) = true ↔
      ∃ rb, env.replaceable
          (env.Block (Tick.landed env w self f m r).w (env.PosFromVec3 m.pos)) = some rb ∧
        rb (Tick.landed env w self f m r).f.block = true) ∧
    ((Tick.landed env w self f m r).f.block = f.block ∨
      env.breakable f.block = some (Tick.landed env w self f m r).f.block) := by
  have hl := (Tick.lands_iff env w f m).mpr hland
  obtain ⟨hS, hA⟩ := Tick.landed_filter env w self f m r
  have ht : (Tick env w self f m r).trace =
      (Tick.place env (Tick.landed env w self f m r) (env.PosFromVec3 m.pos)).trace ++
        [Effect.Close] := by
    rw [Tick_landing env w self f m r hl]; rfl
  rw [ht, Tick.place_trace]
  simp only [List.filter_append, hS, hA, List.nil_append]
  refine ⟨?_, ?_, ?_, ?_, Tick.landed_block env w self f m r⟩
  · intro h
    rw [if_pos h]
    exact ⟨rfl, rfl⟩
  · intro h hi
    rw [if_neg (by rw [h]; simp), if_pos hi]
    exact ⟨rfl, rfl⟩
  · intro h hi
    rw [if_neg (by rw [h]; simp), if_neg (by rw [hi]; simp)]
    exact ⟨rfl, rfl⟩
  · unfold Tick.replaces
    simp only []
    cases env.replaceable (env.Block (Tick.landed env w self f m r).w (env.PosFromVec3 m.pos)) with
    | none => simp
    | some rb => simp

/-- C6: for a falling block `e` whose written block descriptor resolves to its
payload, `DecodeNBT (EncodeNBT e)` is an entity (not nil) whose fall distance
is that of `e`, whose position and velocity are those of `e` with every
component narrowed to a 32-bit float, and whose payload block is that of
`e`. -/
theorem DecodeNBT_EncodeNBT {D : Type} (codec : Codec B D) (rnd : Nat) (e : FallingBlock B)
    (hres : codec.Block (codec.WriteBlock e.block) = some e.block) :
    ∃ n : FallingBlock B,
      FallingBlockType.DecodeNBT codec (FallingBlockType.EncodeNBT codec rnd e) = some n ∧
        n.FallDistance = e.FallDistance ∧
        n.Position =
          ⟨codec.float32 e.Position.x, codec.float32 e.Position.y, codec.float32 e.Position.z⟩ ∧
        n.Velocity =
          ⟨codec.float32 e.Velocity.x, codec.float32 e.Velocity.y, codec.float32 e.Velocity.z⟩ ∧
        n.block = e.block := by
  have hb : nbtconv.MapBlock codec (FallingBlockType.EncodeNBT codec rnd e) "FallingBlock" =
      some e.block := hres
  unfold FallingBlockType.DecodeNBT
  rw [hb]
  exact ⟨_, rfl, rfl, rfl, rfl, rfl⟩

/-- C7: a record whose `"FallingBlock"` lookup yields nil (the field is
missing, holds no block descriptor, or holds one that does not resolve) decodes
to nil, whatever its other fields hold, and a record whose lookup yields a
block decodes to an entity holding that block; `DecodeNBT` returns on every
record. -/
theorem DecodeNBT_nil_iff {D : Type} (codec : Codec B D) (data : Record D) :
    (nbtconv.MapBlock codec data "FallingBlock" = none →
      FallingBlockType.DecodeNBT codec data = none) ∧
    (∀ b, nbtconv.MapBlock codec data "FallingBlock" = some b →
      ∃ n, FallingBlockType.DecodeNBT codec data = some n ∧ n.block = b) ∧
    (data.lookup "FallingBlock" = none → FallingBlockType.DecodeNBT codec data = none) ∧
    (∀ d, data.lookup "FallingBlock" = some (Tag.Compound d) → codec.Block d = none →
      FallingBlockType.DecodeNBT codec data = none) ∧
    (∀ t, data.lookup "FallingBlock" = some t → (∀ d, t ≠ Tag.Compound d) →
      FallingBlockType.DecodeNBT codec data = none) := by
  refine ⟨?_, ?_, ?_, ?_, ?_⟩
  · intro h
    unfold FallingBlockType.DecodeNBT
    rw [h]
  · intro b h
    unfold FallingBlockType.DecodeNBT
    rw [h]
    exact ⟨_, rfl, rfl⟩
  · intro h
    unfold FallingBlockType.DecodeNBT nbtconv.MapBlock
    rw [h]
  · intro d h hd
    unfold FallingBlockType.DecodeNBT nbtconv.MapBlock
    rw [h]
    simp only [hd]
  · intro t h ht
    unfold FallingBlockType.DecodeNBT nbtconv.MapBlock
    rw [h]
    cases t with
    | Compound d => exact absurd rfl (ht d)
    | Int64 v => rfl
    | Float64 v => rfl
    | Float32s v => rfl
    | String v => rfl
    | Bool v => rfl

end Claims

/-! ## The claims on the small world -/

/-- The weight that has fallen 6 blocks lands on the ground: the living
entity `mob` is hurt by 10, which is the amount of the formula. -/
theorem Tick_hurt_amount_witness :
    Demo.touchdown.onGround = true ∧
      Demo.env.damager Demo.heavy.block = some (2, 20) ∧
      1 < (Tick.move Demo.env Demo.airWorld Demo.heavy Demo.touchdown).f.FallDistance ∧
      Effect.Hurt Demo.mob 10 Demo.Blk.weight ∈
        (Tick Demo.env Demo.airWorld Demo.self Demo.heavy Demo.touchdown (1 / 2)).trace ∧
      (10 : ℚ) = min ((⌊Float64.mul ((⌈Float64.sub (Tick.move Demo.env Demo.airWorld Demo.heavy
        Demo.touchdown).f.FallDistance 1⌉ : ℤ) : ℚ) 2⌋ : ℤ) : ℚ) 20 :=
  ⟨rfl, rfl, by decide!, by decide!,
    (Tick_hurt_amount Demo.env Demo.airWorld Demo.self Demo.heavy Demo.touchdown (1 / 2) 2 20
      (Or.inl rfl) rfl (by decide!)).1 Demo.mob 10 Demo.Blk.weight (by decide!)⟩

/-- The weight that has fallen half a block lands on the ground and keeps its
payload. -/
theorem Tick_no_damage_within_one_block_witness :
    Demo.touchdown.onGround = true ∧
      (Tick.move Demo.env Demo.airWorld Demo.light Demo.touchdown).f.FallDistance ≤ 1 ∧
      (Tick Demo.env Demo.airWorld Demo.self Demo.light Demo.touchdown (0 : ℚ)).f.block =
        Demo.light.block :=
  ⟨rfl, by decide!,
    (Tick_no_damage_within_one_block Demo.env Demo.airWorld Demo.self Demo.light Demo.touchdown 0
      (Or.inl rfl) (by decide!)).2⟩

/-- The weight lands in a world of air: one `SetBlock` call and no
`AddEntity` call. -/
theorem Tick_placement_witness :
    Demo.touchdown.onGround = true ∧
      Tick.replaces Demo.env
        (Tick.landed Demo.env Demo.airWorld Demo.self Demo.heavy Demo.touchdown (1 / 2))
        (Demo.env.PosFromVec3 Demo.touchdown.pos) = true ∧
      ((Tick Demo.env Demo.airWorld Demo.self Demo.heavy Demo.touchdown (1 / 2)).trace.filter
          Effect.isSetBlock =
          [Effect.SetBlock (Demo.env.PosFromVec3 Demo.touchdown.pos)
            (Tick.landed Demo.env Demo.airWorld Demo.self Demo.heavy Demo.touchdown (1 / 2)).f.block] ∧
        (Tick Demo.env Demo.airWorld Demo.self Demo.heavy Demo.touchdown (1 / 2)).trace.filter
          Effect.isAddEntity = []) :=
  ⟨rfl, by decide!,
    (Tick_placement Demo.env Demo.airWorld Demo.self Demo.heavy Demo.touchdown (1 / 2)
      (Or.inl rfl)).1 (by decide!)⟩

/-- Powder solidifies in mid-air: the same calls as on the ground. -/
theorem Tick_solidify_as_on_ground_witness :
    Demo.env.solidifiable Demo.dust.block = some (fun _ _ => true) ∧
      (Tick Demo.env Demo.airWorld Demo.self Demo.dust ⟨⟨0, 19 / 2, 0⟩, ⟨0, -(1 / 2), 0⟩, false⟩
          (1 / 2)).trace =
        (Tick Demo.env Demo.airWorld Demo.self Demo.dust ⟨⟨0, 19 / 2, 0⟩, ⟨0, -(1 / 2), 0⟩, true⟩
          (1 / 2)).trace :=
  ⟨rfl,
    (Tick_solidify_as_on_ground Demo.env Demo.airWorld Demo.self Demo.dust ⟨0, 19 / 2, 0⟩
      ⟨0, -(1 / 2), 0⟩ (1 / 2) (fun _ _ => true) rfl rfl).2.1⟩

/-- Falling sand is written and read back: it comes back with its fall
distance, its narrowed position and velocity, and its payload. -/
theorem DecodeNBT_EncodeNBT_witness :
    Demo.codec.Block (Demo.codec.WriteBlock Demo.grain.block) = some Demo.grain.block ∧
      ∃ n : FallingBlock Demo.Blk,
        FallingBlockType.DecodeNBT Demo.codec (FallingBlockType.EncodeNBT Demo.codec 7 Demo.grain) =
            some n ∧
          n.FallDistance = Demo.grain.FallDistance ∧
          n.Position =
            ⟨Demo.codec.float32 Demo.grain.Position.x, Demo.codec.float32 Demo.grain.Position.y,
              Demo.codec.float32 Demo.grain.Position.z⟩ ∧
          n.Velocity =
            ⟨Demo.codec.float32 Demo.grain.Velocity.x, Demo.codec.float32 Demo.grain.Velocity.y,
              Demo.codec.float32 Demo.grain.Velocity.z⟩ ∧
          n.block = Demo.grain.block :=
  ⟨by decide, DecodeNBT_EncodeNBT Demo.codec 7 Demo.grain (by decide)⟩

/-- A record without the `"FallingBlock"` field, and with a `"Pos"` field of
the wrong type, decodes to nil. -/
theorem DecodeNBT_nil_iff_witness :
    nbtconv.MapBlock Demo.codec [("Pos", Tag.String "here"), ("FallDistance", Tag.Bool true)]
        "FallingBlock" = none ∧
      FallingBlockType.DecodeNBT Demo.codec
        [("Pos", Tag.String "here"), ("FallDistance", Tag.Bool true)] = none :=
  ⟨by decide,
    (DecodeNBT_nil_iff Demo.codec [("Pos", Tag.String "here"), ("FallDistance", Tag.Bool true)]).1
      (by decide)⟩

/-- The weight lands on the ground next to four entities: the two living ones
are hurt, in the order the world lists them. -/
theorem Tick_hurts_who_witness :
    Demo.touchdown.onGround = true ∧
      Demo.env.damager Demo.heavy.block = some (2, 20) ∧
      1 < (Tick.move Demo.env Demo.airWorld Demo.heavy Demo.touchdown).f.FallDistance ∧
      (∃ force : ℚ,
        (Tick Demo.env Demo.airWorld Demo.self Demo.heavy Demo.touchdown (1 / 2)).trace.filter
            Effect.isHurt =
          (EntitiesWithin Demo.env (Tick.arrive Demo.env Demo.airWorld Demo.heavy Demo.touchdown).w
            ((FallingBlockType.BBox.Translate Demo.touchdown.pos).Grow (Float64.round (5 / 100)))
            (ignores Demo.self)).map (fun e => Effect.Hurt e force Demo.heavy.block)) ∧
      (Tick Demo.env Demo.airWorld Demo.self Demo.heavy Demo.touchdown (1 / 2)).trace.filter
          Effect.isHurt =
        [Effect.Hurt Demo.mob 10 Demo.Blk.weight, Effect.Hurt Demo.mob2 10 Demo.Blk.weight] :=
  ⟨rfl, rfl, by decide!,
    (Tick_hurts_who Demo.env Demo.airWorld Demo.self Demo.heavy Demo.touchdown (1 / 2) 2 20
      (Or.inl rfl) rfl (by decide!)).1, by decide!⟩

/-- Sand half a block down in mid-air keeps falling: the tick makes the `Send`
call only. -/
theorem Tick_keeps_falling_witness :
    ¬ (Demo.env.PosFromVec3 Demo.drop.pos).y <
        (Demo.env.Range (Tick.move Demo.env Demo.stoneWorld Demo.grain Demo.drop).w).1 ∧
      Demo.drop.onGround = false ∧
      Demo.env.solidifiable Demo.grain.block = none ∧
      (Tick Demo.env Demo.stoneWorld Demo.self Demo.grain Demo.drop (1 / 2)).trace =
        [Effect.Send Demo.drop.pos Demo.drop.vel] :=
  ⟨by decide!, rfl, rfl,
    (Tick_keeps_falling Demo.env Demo.stoneWorld Demo.self Demo.grain Demo.drop (1 / 2)
      (by decide!) rfl (Or.inl rfl)).1⟩

/-- Sand that has fallen 3 blocks: half a block further down the fall distance
is the float64 sum of 3 and `1 / 2`, which is `7 / 2` and not below 3, and 4
blocks up it is 0. -/
theorem Tick_fall_distance_update_witness :
    0 ≤ Demo.grain.FallDistance ∧ Demo.drop.vel.Y ≤ 0 ∧
      (Tick Demo.env Demo.stoneWorld Demo.self Demo.grain Demo.drop (1 / 2)).f.FallDistance =
        Float64.add Demo.grain.FallDistance |Demo.drop.vel.Y| ∧
      Float64.add Demo.grain.FallDistance |Demo.drop.vel.Y| = 7 / 2 ∧
      Float64.round Demo.grain.FallDistance = Demo.grain.FallDistance ∧
      Demo.grain.FallDistance ≤
        (Tick Demo.env Demo.stoneWorld Demo.self Demo.grain Demo.drop (1 / 2)).f.FallDistance ∧
      Demo.grain.FallDistance ≤ Demo.bounce.vel.Y ∧
      (Tick Demo.env Demo.stoneWorld Demo.self Demo.grain Demo.bounce (1 / 2)).f.FallDistance = 0 :=
  ⟨by decide!, by decide!,
    ((Tick_fall_distance_update Demo.env Demo.stoneWorld Demo.self Demo.grain Demo.drop
      (1 / 2)).1 (by decide!) (by decide!)).1, by decide!, by decide!,
    ((Tick_fall_distance_update Demo.env Demo.stoneWorld Demo.self Demo.grain Demo.drop
      (1 / 2)).1 (by decide!) (by decide!)).2.2 (by decide!), by decide!,
    (Tick_fall_distance_update Demo.env Demo.stoneWorld Demo.self Demo.grain Demo.bounce
      (1 / 2)).2 (by decide!)⟩

end GoMine
